import Mathlib

/-!
Verification of the bsb2usfm row-to-tree conversion engine (bsb2usfm.py).

This file shallowly embeds the core of `bsb2usfm.py`: the XML element tree
(`xml.etree` ParentElement nodes become `Elem`), the cursor (`Processor.currnode`
becomes a child-index path into the current document tree), the style
classifier, `ensurespace`, `Style.addto`, `AcrosticStyle.addto`, `canonref`,
the `Processor` methods and `processline`.  Python's in-place mutation becomes
functional update of the tree at the cursor path; Python exceptions become
`Except.error`; `print` calls become entries of a log list carried in the
state.  The handful of regular expressions used by the source are translated
into dedicated scanners whose derivation from the pattern is documented at
each definition.

The external `usfmtc` library (an external collaborator per the design) is not
part of the repository; the few facts the core reads from it (the
marker-category table, the canonical book-code list, `Ref` objects and their
canonical string form, and XML parsing of the literal title-page template) are
modelled where indicated by doc comments.
-/

namespace Bsb

/-! ## String helpers (Python semantics) -/

/-- Python whitespace for `str.strip` and the regex class `\s`:
space, tab, newline, carriage return, vertical tab, form feed. -/
def pyIsWs (c : Char) : Bool :=
  c == ' ' || c == '\t' || c == '\n' || c == '\r' || c == '\x0b' || c == '\x0c'

/-- Python `str.lstrip()`. -/
def pyLstrip (s : String) : String := String.mk (s.data.dropWhile pyIsWs)

/-- Python `str.rstrip()`. -/
def pyRstrip (s : String) : String :=
  String.mk ((s.data.reverse.dropWhile pyIsWs).reverse)

/-- Python `str.strip()`. -/
def pyStrip (s : String) : String := pyLstrip (pyRstrip s)

/-- `s` is nonempty and its last character is in `" \n"` —
the test `x and not x[-1] in " \n"` negated, used by `ensurespace`. -/
def endsSpaceNl (s : String) : Bool :=
  match s.data.getLast? with
  | some c => c == ' ' || c == '\n'
  | none => false

/-- `needle` is a prefix of `hay` (character lists). -/
def lPre : List Char → List Char → Bool
  | [], _ => true
  | _ :: _, [] => false
  | a :: as, b :: bs => a == b && lPre as bs

/-- Index of the first occurrence of `needle` in `hay`, if any. -/
def findSubAux (needle : List Char) : List Char → Option Nat
  | [] => if needle.isEmpty then some 0 else none
  | c :: cs =>
    if lPre needle (c :: cs) then some 0
    else (findSubAux needle cs).map (· + 1)

/-- Python `needle in hay` substring test. -/
def containsSub (needle hay : String) : Bool :=
  (findSubAux needle.data hay.data).isSome

/-- Python `hay.startswith(needle)`. -/
def startsWithS (needle hay : String) : Bool := lPre needle.data hay.data

/-- Value of a digit run, e.g. `natOfDigits "12".data = 12` (Python `int`). -/
def natOfDigits (ds : List Char) : Nat :=
  ds.foldl (fun a c => a * 10 + (c.toNat - 48)) 0

/-- Digit-run prefix and the remainder (the regex `\d*` split point). -/
def takeDigits (u : List Char) : List Char × List Char :=
  (u.takeWhile Char.isDigit, u.dropWhile Char.isDigit)

/-- Index of the first decimal digit, if any. -/
def firstDigitIdx : List Char → Option Nat
  | [] => none
  | c :: cs => if c.isDigit then some 0 else (firstDigitIdx cs).map (· + 1)

/-- Python truthiness of an optional string (`None` and `""` are falsy). -/
def optTruthy : Option String → Bool
  | some s => s ≠ ""
  | none => false

/-- Python `f"{x}"` for an optional integer (`None` prints as `"None"`). -/
def optNatStr : Option Nat → String
  | some n => toString n
  | none => "None"

/-- Assoc-list lookup (Python `dict.get`). -/
def lookupAssoc {α : Type} (l : List (String × α)) (k : String) : Option α :=
  (l.find? (fun p => p.1 == k)).map (·.2)

def strReplaceGo (old new : List Char) : Nat → List Char → List Char
  | 0, s => s
  | fuel + 1, s =>
    match findSubAux old s with
    | none => s
    | some i => s.take i ++ new ++ strReplaceGo old new fuel (s.drop (i + old.length))

/-- Python `s.replace(old, new)` for a nonempty `old` (the source replaces
`"%"` in the filename template). -/
def strReplace (s old new : String) : String :=
  String.mk (strReplaceGo old.data new.data (s.data.length + 1) s.data)

/-! ## The element tree

`xml.etree` elements as built by the converter: tag, attribute list, leading
`text`, trailing `tail`, children.  Representation choices:

* The `children` field stores the children **newest first** (reverse document
  order): Python's `parent.append(child)` is a cons, `n[-1]` is the head, and
  `ensurespace`'s descent into the last child is structural recursion.
  `Elem.ofKids` builds a node from document-order children and `Elem.kids`
  reads them back in document order; all child *indices* (cursor paths) are
  Python indices (document order), converted at access time.
* The Python parent back-pointer is not stored; the cursor is a path of child
  indices from the document root, and walking to `parent` drops the last
  index. -/

inductive Elem : Type where
  | mk : (tag : String) → (attrs : List (String × String)) → (text : Option String) →
      (tail : Option String) → (children : List Elem) → Elem

def Elem.tag : Elem → String
  | .mk t _ _ _ _ => t

def Elem.attrs : Elem → List (String × String)
  | .mk _ a _ _ _ => a

def Elem.text : Elem → Option String
  | .mk _ _ t _ _ => t

def Elem.tail : Elem → Option String
  | .mk _ _ _ t _ => t

def Elem.children : Elem → List Elem
  | .mk _ _ _ _ c => c

/-- Python `elem.get(k, None)`. -/
def Elem.get? (e : Elem) (k : String) : Option String :=
  lookupAssoc e.attrs k

def Elem.withText (e : Elem) (t : Option String) : Elem :=
  match e with
  | .mk tg a _ tl cs => .mk tg a t tl cs

def Elem.withTail (e : Elem) (t : Option String) : Elem :=
  match e with
  | .mk tg a tx _ cs => .mk tg a tx t cs

def Elem.withChildren (e : Elem) (cs : List Elem) : Elem :=
  match e with
  | .mk tg a tx tl _ => .mk tg a tx tl cs

/-- Build a node from its children in document order. -/
def Elem.ofKids (tg : String) (a : List (String × String)) (t tl : Option String)
    (kids : List Elem) : Elem :=
  .mk tg a t tl kids.reverse

/-- The children in document order. -/
def Elem.kids (e : Elem) : List Elem := e.children.reverse

/-- Python `parent.append(child)` (newest-first storage: a cons). -/
def Elem.push (e : Elem) (c : Elem) : Elem :=
  e.withChildren (c :: e.children)

/-- Apply `f` to the last child in document order, i.e. the head of the
newest-first list (the mutation `n[-1].x = …`). -/
def modLast {α : Type} (f : α → α) : List α → List α
  | [] => []
  | c :: cs => f c :: cs

/-! ### `ensurespace` (bsb2usfm.py lines 17–24)

```
def ensurespace(n):
    if not len(n):
        if n.text and not n.text[-1] in " \n":
            n.text += " "
    elif n[-1].tail and not n[-1].tail[-1] in " \n":
        n[-1].tail += " "
    else:
        ensurespace(n[-1])
```
In the newest-first representation `n[-1]` is the head child, so the
recursion into the last child is structural. -/

def ensurespace : Elem → Elem
  | .mk tg a t tl [] =>
    (match t with
     | some s =>
       if s ≠ "" && !endsSpaceNl s then Elem.mk tg a (some (s ++ " ")) tl []
       else Elem.mk tg a t tl []
     | none => Elem.mk tg a t tl [])
  | .mk tg a t tl (c :: cs) =>
    (match c.tail with
     | some s =>
       if s ≠ "" && !endsSpaceNl s then Elem.mk tg a t tl (c.withTail (some (s ++ " ")) :: cs)
       else Elem.mk tg a t tl (ensurespace c :: cs)
     | none => Elem.mk tg a t tl (ensurespace c :: cs))

/-! ### Tree measures and queries used by the theorems -/

def optLen : Option String → Nat
  | some s => s.length
  | none => 0

mutual

/-- Total number of characters of text held in the subtree (text + tail);
used by the theorems to measure what `ensurespace` appends. -/
def Elem.textLen : Elem → Nat
  | .mk _ _ t tl cs => optLen t + optLen tl + textLenList cs

def textLenList : List Elem → Nat
  | [] => 0
  | c :: cs => Elem.textLen c + textLenList cs

end

/-! ### Paths: the cursor into the document tree

Path components are Python child indices (document order); with the
newest-first storage, index `i` of `n` children lives at list position
`n - 1 - i`. -/

/-- The stored-list position of Python child index `i` (`none` if out of
range). -/
def stPos (cs : List Elem) (i : Nat) : Option Nat :=
  if i < cs.length then some (cs.length - 1 - i) else none

/-- Node at a child-index path, if the path is valid. -/
def Elem.getAt? : Elem → List Nat → Option Elem
  | e, [] => some e
  | e, i :: p =>
    match stPos e.children i with
    | some j =>
      match e.children.get? j with
      | some c => c.getAt? p
      | none => none
    | none => none

/-- Apply `f` to the node at the path (identity when the path is invalid;
all reachable cursors in the embedding are valid paths). -/
def Elem.modifyAt : Elem → List Nat → (Elem → Elem) → Elem
  | e, [], f => f e
  | e, i :: p, f =>
    match stPos e.children i with
    | some j =>
      match e.children.get? j with
      | some c => e.withChildren (e.children.set j (c.modifyAt p f))
      | none => e
    | none => e

/-- Python `node_at_path.append(c)`. -/
def Elem.appendAt (doc : Elem) (p : List Nat) (c : Elem) : Elem :=
  doc.modifyAt p (fun e => e.push c)

/-- Number of children of the node at the path (0 when invalid). -/
def Elem.childCountAt (doc : Elem) (p : List Nat) : Nat :=
  ((doc.getAt? p).map (fun e => e.children.length)).getD 0

/-! ## Style classifier (bsb2usfm.py lines 11–15 and the external grammar) -/

/-- `category_types` (lines 11–14): category group names per structural kind. -/
def category_types : List (String × List String) :=
  [("char", ["char", "footnotechar", "crossreferencechar", "listchar", "introchar"]),
   ("para", ["header", "introduction", "list", "otherpara", "sectionpara", "title", "versepara"])]

/-- `categories` (line 15): the flattened inverse of `category_types`. -/
def categoriesList : List (String × String) :=
  (category_types.map (fun p => p.2.map (fun v => (v, p.1)))).flatten

/-- Modelled from the spec: the tag → category-group mapping that the code
reads from the external grammar (`usfmtc` `Grammar.marker_categories`, an
external collaborator; the library is not part of this repository).  The
spec describes it as a fixed mapping from tags to category group names such
as `"char"`, `"footnotechar"`, `"header"`, …; the entries below cover every
marker this program consults, with the standard USFM category of each. -/
def marker_categories : List (String × String) :=
  [("wj", "char"),
   ("fv", "footnotechar"), ("fr", "footnotechar"), ("ft", "footnotechar"),
   ("fq", "footnotechar"), ("fqa", "footnotechar"),
   ("s1", "sectionpara"), ("s2", "sectionpara"), ("ms", "sectionpara"),
   ("mr", "sectionpara"), ("r", "sectionpara"), ("qa", "versepara"),
   ("q1", "versepara"), ("q2", "versepara"), ("qr", "versepara"), ("b", "versepara"),
   ("p", "otherpara"), ("pc", "otherpara"), ("pmo", "otherpara"),
   ("li1", "list"), ("li2", "list"),
   ("h", "header"), ("toc1", "header"), ("toc2", "header"), ("toc3", "header"),
   ("mt1", "title"), ("mt2", "title")]

/-- `Grammar.marker_categories.get(s, default)` with default `""`. -/
def mcGet (s : String) : Option String := lookupAssoc marker_categories s

/-- `Grammar.marker_categories.get(x, None)` for an optional key
(`parent.get("style", None)` may be `None`, which is not in the table). -/
def mcGetOpt : Option String → Option String
  | some s => mcGet s
  | none => none

/-- `categories.get(Grammar.marker_categories.get(s, ""), None)`:
the structural kind (`"char"` or `"para"`) of a style tag, if known. -/
def kindOf (s : String) : Option String :=
  lookupAssoc categoriesList ((mcGet s).getD "")

/-! ## References (usfmtc `Ref`, external) -/

/-- Modelled from the spec: the book/chapter/verse value of the external
`Ref` class, restricted to the fields this program reads (`book`, `chapter`,
`verse`); unset fields are `None`. -/
structure PRef where
  book : Option String
  chapter : Option Nat
  verse : Option Nat
deriving DecidableEq

/-- Modelled from the spec: canonical formatting of a full reference,
`"GEN 1:1"`-style (`str(Ref)` of the external library). -/
def refStr (r : PRef) : String :=
  (r.book.getD "None") ++ " " ++ optNatStr r.chapter ++ ":" ++ optNatStr r.verse

/-- `str(self.cref)` where `cref` may be `None` (Python `str(None) = "None"`). -/
def refStrOpt : Option PRef → String
  | some r => refStr r
  | none => "None"

/-- `canonref`'s result: a single reference or a `RefRange`. -/
inductive RR : Type where
  | one : PRef → RR
  | range : PRef → PRef → RR
deriving DecidableEq

/-- Modelled from the spec: canonical formatting of a reference or range
(`str` of the external `Ref`/`RefRange`; used only as an attribute value,
never inspected by the claims). -/
def rrStr : RR → String
  | .one r => refStr r
  | .range a b => refStr a ++ "-" ++ refStr b

/-- The 66 canonical book names of the source's `booknames` list
(bsb2usfm.py lines 91–99). -/
def booknames : List String :=
  ["Genesis", "Exodus", "Leviticus", "Numbers", "Deuteronomy", "Joshua", "Judges", "Ruth",
   "1 Samuel", "2 Samuel", "1 Kings", "2 Kings", "1 Chronicles", "2 Chronicles", "Ezra",
   "Nehemiah", "Esther", "Job", "Psalm", "Proverbs", "Ecclesiastes", "Song of Solomon",
   "Isaiah", "Jeremiah", "Lamentations", "Ezekiel", "Daniel", "Hosea", "Joel", "Amos",
   "Obadiah", "Jonah", "Micah", "Nahum", "Habakkuk", "Zephaniah", "Haggai", "Zechariah",
   "Malachi",
   "Matthew", "Mark", "Luke", "John", "Acts", "Romans", "1 Corinthians", "2 Corinthians",
   "Galatians", "Ephesians", "Philippians", "Colossians", "1 Thessalonians",
   "2 Thessalonians", "1 Timothy", "2 Timothy", "Titus", "Philemon", "Hebrews", "James",
   "1 Peter", "2 Peter", "1 John", "2 John", "3 John", "Jude", "Revelation"]

/-- Modelled from the spec: the leading 66 entries of the external `allbooks`
list (usfmtc), i.e. the canonical 3-letter Paratext book codes in canon
order; the source maps `booknames[i]` to `allbooks[i]`. -/
def allbooks66 : List String :=
  ["GEN", "EXO", "LEV", "NUM", "DEU", "JOS", "JDG", "RUT",
   "1SA", "2SA", "1KI", "2KI", "1CH", "2CH", "EZR",
   "NEH", "EST", "JOB", "PSA", "PRO", "ECC", "SNG",
   "ISA", "JER", "LAM", "EZK", "DAN", "HOS", "JOL", "AMO",
   "OBA", "JON", "MIC", "NAM", "HAB", "ZEP", "HAG", "ZEC",
   "MAL",
   "MAT", "MRK", "LUK", "JHN", "ACT", "ROM", "1CO", "2CO",
   "GAL", "EPH", "PHP", "COL", "1TH",
   "2TH", "1TI", "2TI", "TIT", "PHM", "HEB", "JAS",
   "1PE", "2PE", "1JN", "2JN", "3JN", "JUD", "REV"]

/-- `bookmap.get(name)` (line 108): canonical English name → book code. -/
def bookmapGet (s : String) : Option String :=
  ((booknames.zip allbooks66).find? (fun p => p.1 == s)).map (·.2)

/-- `booknames[allbooks.index(bk)]` (only ever called with codes produced by
`bookmap`, so the lookup always succeeds; the default is unreachable). -/
def booknameOf (bk : String) : String :=
  (((allbooks66.zip booknames).find? (fun p => p.1 == bk)).map (·.2)).getD ""

/-! ## `Style.addto` (bsb2usfm.py lines 26–68) -/

/-- `Style`: a chain of style tags plus an optional trailing `after` style. -/
structure Sty where
  styles : List String
  after : Option String
deriving DecidableEq

/-- The verse-marker element created in `Style.addto` (lines 50–51):
`makeelement("verse", {"style": "v", "number": str(verse.verse)})`. -/
def mkVerseElem (r : PRef) : Elem :=
  .mk "verse" [("style", "v"), ("number", optNatStr r.verse)] none none []

/-- Lines 49–52 as a function of the optional pending verse: append the
verse marker when one is pending. -/
def pushVerse : Option PRef → Elem → Elem
  | some r, e => e.push (mkVerseElem r)
  | none, e => e

/-- The `b`-suppression test of lines 36–38: the style is `"b"`, the parent
exists, and the parent's own style classifies as `"sectionpara"`. -/
def bSuppress (doc : Elem) (parent : Option (List Nat)) : Bool :=
  match parent with
  | none => false
  | some pp => mcGetOpt ((doc.getAt? pp).bind (fun e => e.get? "style")) == some "sectionpara"

/-- The `for s in self.styles` loop of `Style.addto` (lines 35–58).
Arguments mirror the loop state: document, `parent` (cursor path or Python
`None`), `res` (last created node), `ispar`, `verse`.  A resolvable style
with `parent = None` reproduces Python's `AttributeError` (`None.parent` /
`None.makeelement`); unresolvable styles are skipped without touching the
parent, as in the source. -/
def addtoGo (doc : Elem) (parent : Option (List Nat)) (res : Option (List Nat))
    (ispar : Bool) (verse : Option PRef) :
    List String → Except String (Elem × Option (List Nat) × Option (List Nat))
  | [] => .ok (doc, parent, res)
  | s :: rest =>
    if s == "b" && bSuppress doc parent then
      addtoGo doc parent res ispar verse rest
    else
      match kindOf s with
      | none => addtoGo doc parent res ispar verse rest
      | some t =>
        match parent with
        | none => .error "AttributeError: NoneType parent in addto"
        | some pp =>
          -- lines 42–44: walk up to the root for paragraphs / paragraph requests
          let pp := if t == "para" || ispar then [] else pp
          -- lines 45–48: synthesize a default "p" paragraph
          let (doc, pp) :=
            if ispar && t != "para" then
              let n := doc.childCountAt pp
              (doc.appendAt pp (.mk "para" [("style", "p")] none none []), pp ++ [n])
            else (doc, pp)
          -- lines 49–52: pending verse marker
          let (doc, verse) :=
            match verse with
            | some r => if t != "para" then (doc.appendAt pp (mkVerseElem r), none)
                        else (doc, some r)
            | none => (doc, none)
          -- lines 53–54: whitespace enforcement for character runs
          let doc := if t != "para" then doc.modifyAt pp ensurespace else doc
          -- lines 55–57: create the node, descend
          let n := doc.childCountAt pp
          let doc := doc.appendAt pp (.mk t [("style", s)] none none [])
          addtoGo doc (some (pp ++ [n])) (some (pp ++ [n])) false verse rest

/-- `Style.addto` (lines 33–68).  Returns the updated document, the created
node's path (`res`, Python's return value; `none` when no style resolved)
and the log entries printed. -/
def Sty.addto (sty : Sty) (doc : Elem) (parent : Option (List Nat)) (text : Option String)
    (ispar : Bool) (verse : Option PRef) :
    Except String (Elem × Option (List Nat) × List String) := do
  let (doc, parent2, res) ← addtoGo doc parent none ispar verse sty.styles
  let (doc, log) :=
    match res with
    | none => (doc, ["Bad styles: " ++ toString sty.styles])
    | some rp =>
      (match text with
       | some t => doc.modifyAt rp (fun e => e.withText (some t))
       | none => doc, [])
  match sty.after with
  | none => .ok (doc, res, log)
  | some a =>
    match kindOf a with
    | none => .ok (doc, res, log)
    | some t =>
      match parent2 with
      | some pp => .ok (doc.appendAt pp (.mk t [("style", a)] none none []), res, log)
      | none => .error "AttributeError: NoneType parent for after style"

/-! ## Scanners for the source's regular expressions

Each scanner is a direct translation of one pattern, with Python `regex`
semantics: `.` does not match a newline, `.*?` is lazy, `search` takes the
leftmost match, `match` anchors at the start.  The derivations are noted at
each definition. -/

/-- Characters of `u` up to the first occurrence of `cls` (the lazy group
`(.*?)` followed by the literal `cls`); fails if a newline or the end of the
string comes first.  Returns the group and the length consumed including
`cls`. -/
def groupTo (cls : List Char) : List Char → Option (List Char × Nat)
  | [] => none
  | c :: tl =>
    if lPre cls (c :: tl) then some ([], cls.length)
    else if c == '\n' then none
    else (groupTo cls tl).map (fun p => (c :: p.1, p.2 + 1))

/-- Leftmost match of `OPEN(.*?)CLOSE`: scans start positions left to right;
at each occurrence of `opn` the lazy group runs to the nearest `cls`
(blocked by newlines), else the search bumps along.  Returns start index,
group, end index. -/
def lazySpanGo (opn cls : List Char) : List Char → Nat → Option (Nat × List Char × Nat)
  | [], _ => none
  | s@(_ :: tl), p =>
    if lPre opn s then
      match groupTo cls (s.drop opn.length) with
      | some (g, n) => some (p, g, p + opn.length + n)
      | none => lazySpanGo opn cls tl (p + 1)
    else lazySpanGo opn cls tl (p + 1)

/-- `regex.search(OPEN ++ "(.*?)" ++ CLOSE, s)` presented as
(text before the match, the group, text after the match). -/
def lazySpan (opn cls s : String) : Option (String × String × String) :=
  (lazySpanGo opn.data cls.data s.data 0).map
    (fun r => (String.mk (s.data.take r.1), String.mk r.2.1, String.mk (s.data.drop r.2.2)))

/-- First position where one of `needles` occurs, with that needle's length
(needles are disjoint literals here, so order is immaterial). -/
def findAny (needles : List (List Char)) : List Char → Option (Nat × Nat)
  | [] => none
  | c :: cs =>
    match needles.find? (fun nd => lPre nd (c :: cs)) with
    | some nd => some (0, nd.length)
    | none => (findAny needles cs).map (fun p => (p.1 + 1, p.2))

def splitSubsGo (needles : List (List Char)) : Nat → List Char → List (List Char)
  | 0, s => [s]
  | fuel + 1, s =>
    match findAny needles s with
    | none => [s]
    | some (i, l) => s.take i :: splitSubsGo needles fuel (s.drop (i + l))

/-- `regex.split` on an alternation of literal separators (`</?i>` is the
alternation `<i>`/`</i>`; `</(?:span|div)>` is `</span>`/`</div>`).  The
fuel is the string length; every step consumes at least one character, so it
never runs out. -/
def splitSubs (needles : List String) (s : String) : List String :=
  (splitSubsGo (needles.map (·.data)) (s.data.length + 1) s.data).map String.mk

/-- `regex.sub(r"[\[\]{}]", "", s)` — `debracket` (line 152). -/
def debracket (s : String) : String :=
  String.mk (s.data.filter (fun c => !(c == '[' || c == ']' || c == '\x7b' || c == '\x7d')))

/-- `regex.match(r"^[\d,]+$", t)` (line 398): `t` is nonempty and all digits
or commas.  (The Python `$` nuance of matching before one trailing newline
is immaterial for cell data and not modelled.) -/
def digitsCommas (s : String) : Bool :=
  !s.data.isEmpty && s.data.all (fun c => c.isDigit || c == ',')

/-! ### The verse-id pattern `(\d?\s*\D+)\s*(\d+):(\d+)` (line 362, `regex.match`)

With backtracking worked out for this pattern (`\D` includes whitespace, so
the inner `\d?\s*\D+` partition is flexible but group 1 always spans up to
the first digit after the optional leading one): a match from offset `off`
(0, or 1 after a leading digit) exists iff the first digit at or after `off`
is at index `off + jr` with `jr ≥ 1`, followed by a digit run, a colon and a
second digit run; group 1 is then everything before that first digit.  When
the string starts with a digit the greedy `\d?` branch is tried first; its
failure implies the empty-`\d?` branch also fails (the first character would
start `\D+` but is a digit). -/

def verseIdCont (u : List Char) : Option (Nat × Nat) :=
  let (d1, r1) := takeDigits u
  if d1.isEmpty then none
  else
    match r1 with
    | ':' :: r2 =>
      let (d2, _) := takeDigits r2
      if d2.isEmpty then none else some (natOfDigits d1, natOfDigits d2)
    | _ => none

def vTry (u : List Char) (off : Nat) : Option (String × Nat × Nat) :=
  match firstDigitIdx (u.drop off) with
  | none => none
  | some jr =>
    if jr == 0 then none
    else
      match verseIdCont (u.drop (off + jr)) with
      | some (c, v) => some (String.mk (u.take (off + jr)), c, v)
      | none => none

/-- The match of line 362: `(group1, chapter, verse)` or no match. -/
def verseIdMatch (s : String) : Option (String × Nat × Nat) :=
  match s.data with
  | [] => none
  | c :: _ => if c.isDigit then vTry s.data 1 else vTry s.data 0

/-! ### `canonref` (lines 110–121)

Pattern: `((?:\d\s*)?\S+)\s*(\d+):(\d+)([-–](\d+)(:(\d+))?)?` with
`regex.search`.  Backtracking for this pattern reduces to: at a start
position, after the optional leading digit and its whitespace, take the
maximal non-space run; try cut points from its end downwards (greedy `\S+`);
at each cut the continuation is deterministic — maximal whitespace, a digit
run, `:`, a digit run, then the optional dash range (`-` or en-dash,
digits, optionally `:` digits).  The first cut that succeeds gives group 1
(everything from the start to the cut).  `search` tries start positions
left to right. -/

/-- Range info: `(group5, optional group7)` — verse, or chapter with verse. -/
structure CanonM where
  g1 : List Char
  chapter : Nat
  verse : Nat
  rng : Option (Nat × Option Nat)
  len : Nat
deriving DecidableEq

/-- The deterministic continuation `\s*(\d+):(\d+)([-–](\d+)(:(\d+))?)?`
from a cut point; returns chapter, verse, range part and consumed length. -/
def canonCont (rest : List Char) : Option (Nat × Nat × Option (Nat × Option Nat) × Nat) :=
  let ws := rest.takeWhile pyIsWs
  let r1 := rest.drop ws.length
  let (d1, r2) := takeDigits r1
  if d1.isEmpty then none
  else
    match r2 with
    | ':' :: r3 =>
      let (d2, r4) := takeDigits r3
      if d2.isEmpty then none
      else
        let base := ws.length + d1.length + 1 + d2.length
        let noRange := some (natOfDigits d1, natOfDigits d2, none, base)
        match r4 with
        | c :: r5 =>
          if c == '-' || c == '–' then
            let (d3, r6) := takeDigits r5
            if d3.isEmpty then noRange
            else
              match r6 with
              | ':' :: r7 =>
                let (d4, _) := takeDigits r7
                if d4.isEmpty then
                  some (natOfDigits d1, natOfDigits d2, some (natOfDigits d3, none),
                        base + 1 + d3.length)
                else
                  some (natOfDigits d1, natOfDigits d2,
                        some (natOfDigits d3, some (natOfDigits d4)),
                        base + 1 + d3.length + 1 + d4.length)
              | _ => some (natOfDigits d1, natOfDigits d2, some (natOfDigits d3, none),
                           base + 1 + d3.length)
          else noRange
        | [] => noRange
    | _ => none

/-- Try cut lengths `ℓ, ℓ-1, …, 1` of the non-space run (greedy `\S+`). -/
def tryCuts (g1pre run restAfter : List Char) : Nat → Option CanonM
  | 0 => none
  | ℓ + 1 =>
    match canonCont (run.drop (ℓ + 1) ++ restAfter) with
    | some (c, v, rng, n) =>
      some ⟨g1pre ++ run.take (ℓ + 1), c, v, rng, g1pre.length + ℓ + 1 + n⟩
    | none => tryCuts g1pre run restAfter ℓ

/-- Match of the `canonref` pattern anchored at the head of `u`. -/
def canonMatchAt (u : List Char) : Option CanonM :=
  let tryB :=
    let run := u.takeWhile (fun c => !pyIsWs c)
    if run.isEmpty then none
    else tryCuts [] run (u.drop run.length) run.length
  match u with
  | c :: tl =>
    if c.isDigit then
      let ws := tl.takeWhile pyIsWs
      let rest := tl.drop ws.length
      let run := rest.takeWhile (fun x => !pyIsWs x)
      let tryA :=
        if run.isEmpty then none
        else tryCuts (c :: ws) run (rest.drop run.length) run.length
      match tryA with
      | some m => some m
      | none => tryB
    else tryB
  | [] => none

/-- Leftmost match (`regex.search`): the match and its start position. -/
def canonSearchGo : List Char → Nat → Option (CanonM × Nat)
  | [], _ => none
  | s@(_ :: tl), p =>
    match canonMatchAt s with
    | some m => some (m, p)
    | none => canonSearchGo tl (p + 1)

/-- `canonref` (lines 110–121): `(None, 0, 0)` on no match, else the
reference (or range, via `res.copy(**kw)`) with the match's start and end
offsets. -/
def canonref (s : String) : Option RR × Nat × Nat :=
  match canonSearchGo s.data 0 with
  | none => (none, 0, 0)
  | some (m, p) =>
    let res : PRef := ⟨bookmapGet (pyStrip (String.mk m.g1)), some m.chapter, some m.verse⟩
    let rr :=
      match m.rng with
      | none => RR.one res
      | some (g5, none) => RR.range res { res with verse := some g5 }
      | some (g5, some g7) => RR.range res { res with chapter := some g5, verse := some g7 }
    (some rr, p, p + m.len)

/-! ### The three heading patterns of `addheading` (lines 222, 236, 258) -/

/-- Lazy body of `(.*?)(?=$|<(?:p|span|div))` (line 222): shortest run of
non-newline characters up to the end or a `<p`/`<span`/`<div` opener; the
lookahead consumes nothing.  Returns (body, rest from the stop position);
fails if a newline intervenes. -/
def bodyToStop : List Char → Option (List Char × List Char)
  | [] => some ([], [])
  | s@(c :: tl) =>
    if lPre "<p".data s || lPre "<span".data s || lPre "<div".data s then some ([], s)
    else if c == '\n' then none
    else (bodyToStop tl).map (fun p => (c :: p.1, p.2))

/-- Lazy body of `(.*?)(</X>|$)`: shortest run up to the literal close tag
(consumed) or the end of the string; fails on a newline. -/
def bodyToCloseOrEnd (cls : List Char) : List Char → Option (List Char × List Char)
  | [] => some ([], [])
  | s@(c :: tl) =>
    if lPre cls s then some ([], s.drop cls.length)
    else if c == '\n' then none
    else (bodyToCloseOrEnd cls tl).map (fun p => (c :: p.1, p.2))

/-- `regex.match(r"<p class=\|(.*?)\|>(.*?)(?=$|<(?:p|span|div))", txt)`
(line 222): `(class, body, rest after the match)`. -/
def matchHeadP (s : String) : Option (String × String × String) :=
  if startsWithS "<p class=|" s then
    match groupTo "|>".data (s.data.drop 10) with
    | some (cls, n) =>
      match bodyToStop (s.data.drop (10 + n)) with
      | some (body, rest) => some (String.mk cls, String.mk body, String.mk rest)
      | none => none
    | none => none
  else none

/-- `regex.match(r"<span class=\|(.*?)\|>(.*?)(</span>|$)", txt)` (line 236). -/
def matchHeadSpan (s : String) : Option (String × String × String) :=
  if startsWithS "<span class=|" s then
    match groupTo "|>".data (s.data.drop 13) with
    | some (cls, n) =>
      match bodyToCloseOrEnd "</span>".data (s.data.drop (13 + n)) with
      | some (body, rest) => some (String.mk cls, String.mk body, String.mk rest)
      | none => none
    | none => none
  else none

/-- `regex.match(r"<div class=\|(.*?)\|>(.*?)(</div>|$)", txt)` (line 258). -/
def matchHeadDiv (s : String) : Option (String × String × String) :=
  if startsWithS "<div class=|" s then
    match groupTo "|>".data (s.data.drop 13) with
    | some (cls, n) =>
      match bodyToCloseOrEnd "</div>".data (s.data.drop (13 + n)) with
      | some (body, rest) => some (String.mk cls, String.mk body, String.mk rest)
      | none => none
    | none => none
  else none

/-- Leftmost match of `<a.*?>(.*?)</a>` (the split pattern of line 245):
start index, the captured group, end index. -/
def findAMatchGo : List Char → Nat → Option (Nat × List Char × Nat)
  | [], _ => none
  | s@(_ :: tl), p =>
    if lPre "<a".data s then
      match groupTo ">".data (s.drop 2) with
      | some (_, n1) =>
        match groupTo "</a>".data (s.drop (2 + n1)) with
        | some (g, n2) => some (p, g, p + 2 + n1 + n2)
        | none => findAMatchGo tl (p + 1)
      | none => findAMatchGo tl (p + 1)
    else findAMatchGo tl (p + 1)

def aSplitGo : Nat → List Char → List (List Char)
  | 0, s => [s]
  | fuel + 1, s =>
    match findAMatchGo s 0 with
    | none => [s]
    | some (i, g, e) => s.take i :: g :: aSplitGo fuel (s.drop e)

/-- `regex.split(r"<a.*?>(.*?)</a>", s)`: with one capture group the result
alternates outside text and captured groups. -/
def aSplit (s : String) : List String :=
  (aSplitGo (s.data.length + 1) s.data).map String.mk

/-- `regex.match(r"(.*?)<br> (.*)", text)` of `AcrosticStyle.addto`
(line 78): group 1 up to the first `"<br> "`, group 2 the rest of the line
(`.` does not cross a newline). -/
def brMatch (s : String) : Option (String × String) :=
  match groupTo "<br> ".data s.data with
  | some (g1, n) =>
    some (String.mk g1, String.mk ((s.data.drop n).takeWhile (fun c => c ≠ '\n')))
  | none => none

/-! ## `ptypes` (lines 124–150) and dispatch -/

/-- `AcrosticStyle.addto` (lines 75–88): on a `"<br> "` match, walk to the
root and append two paragraphs carrying the two halves; returns the second
paragraph.  `None` text, or no match, yields a `None` result without
touching the tree.  A `None` parent with a successful match reproduces
Python's crash at `parent.parent`. -/
def acrosticAddto (s1 s2 : String) (doc : Elem) (parent : Option (List Nat))
    (text : Option String) : Except String (Elem × Option (List Nat)) :=
  match text with
  | none => .ok (doc, none)
  | some txt =>
    match brMatch txt with
    | none => .ok (doc, none)
    | some (g1, g2) =>
      match parent with
      | none => .error "AttributeError: NoneType parent in AcrosticStyle"
      | some _ =>
        let n := doc.children.length
        let doc := doc.push (.mk "para" [("style", s1)] (some g1) none [])
        let doc := doc.push (.mk "para" [("style", s2)] (some g2) none [])
        .ok (doc, some [n + 1])

/-- The values of the `ptypes` table: a plain style chain, the acrostic
special case, or the `"reftext"` placeholder (a bare string in the source;
calling `.addto` on it would raise `AttributeError`). -/
inductive PType : Type where
  | sty : Sty → PType
  | acrostic : String → String → PType
  | reftext : PType

/-- `ptypes` (lines 124–150). -/
def ptypes : List (String × PType) :=
  [("acrostic", .acrostic "qa" "qa"),
   ("cross", .sty ⟨["r"], none⟩),
   ("fnv", .sty ⟨["fv"], none⟩),
   ("hdg", .sty ⟨["s1"], none⟩),
   ("ihdg", .sty ⟨["s2"], none⟩),
   ("indent1", .sty ⟨["q1"], none⟩),
   ("indent1stline", .sty ⟨["b", "q1"], none⟩),
   ("indent1stlinered", .sty ⟨["q1", "wj"], none⟩),
   ("indent2", .sty ⟨["q2"], none⟩),
   ("indentred1", .sty ⟨["q1", "wj"], none⟩),
   ("indentred2", .sty ⟨["q2", "wj"], none⟩),
   ("inscrip", .sty ⟨["pc"], none⟩),
   ("list1", .sty ⟨["li1"], none⟩),
   ("list1stline", .sty ⟨["b", "li1"], none⟩),
   ("list2", .sty ⟨["li2"], none⟩),
   ("pshdg", .sty ⟨["mr"], none⟩),
   ("red", .sty ⟨["wj"], none⟩),
   ("reftext", .reftext),
   ("reg", .sty ⟨["p"], none⟩),
   ("selah", .sty ⟨["qr"], none⟩),
   ("subhdg", .sty ⟨["s2"], none⟩),
   ("suphdg", .sty ⟨["ms"], none⟩),
   ("tab1", .sty ⟨["b"], some "pmo"⟩),
   ("tab1stline", .sty ⟨["pmo"], none⟩),
   ("tab1stlinered", .sty ⟨["pmo", "wj"], none⟩)]

/-- Dispatch of `c.addto(...)` over the three value shapes in `ptypes`. -/
def PType.addto : PType → Elem → Option (List Nat) → Option String → Bool → Option PRef →
    Except String (Elem × Option (List Nat) × List String)
  | .sty s, doc, par, text, ispar, verse => s.addto doc par text ispar verse
  | .acrostic a b, doc, par, text, _, _ =>
    (acrosticAddto a b doc par text).map (fun p => (p.1, p.2, []))
  | .reftext, _, _, _, _, _ => .error "AttributeError: str object has no addto"

/-! ## Processor state (bsb2usfm.py lines 154–166) -/

def strTake (s : String) (n : Nat) : String := String.mk (s.data.take n)

def strDrop (s : String) (n : Nat) : String := String.mk (s.data.drop n)

def strSub (s : String) (i j : Nat) : String := String.mk ((s.data.take j).drop i)

/-- One input row, with the named cells `processline` reads.  The source
maps rows through the header of the tables file; with the in-repo header
(`create_demo_data.py`), `row[17]` is the `begQ` column and `row[20]` the
`endQ` column, which `processline` addresses positionally. -/
structure Row where
  verseId : String
  hdg : String
  crossref : String
  par : String
  begQ : String
  bsb : String
  pnc : String
  endQ : String
  footnotes : String
  endText : String

/-- The `Processor`'s mutable state.  `doc` is the open document tree,
`cur` the cursor path into it (`currnode`; `none` is Python `None`),
`written` the filenames flushed by `writedoc`, `log` the `print` output. -/
structure PState where
  doc : Option Elem
  cur : Option (List Nat)
  cref : Option PRef
  outname : String
  books : Option (List String)
  fnqs : Option (List (String × List String))
  names : Option (List (String × String × String × String))
  fncount : Nat
  pendinglstrip : Bool
  skipping : Bool
  verse_pending : Bool
  log : List String
  written : List String

/-- `Processor.__init__` (lines 155–166). -/
def initState (outname : String) (books : Option (List String))
    (fnqs : Option (List (String × List String)))
    (names : Option (List (String × String × String × String))) : PState :=
  ⟨none, none, none, outname, books, fnqs, names, 0, false, false, false, [], []⟩

/-- Modelled from the spec/external library: `self.doc.book` — the code of
the document's book element. -/
def docBook (d : Elem) : String :=
  (((d.children.find? (fun c => c.tag == "book")).bind (fun c => c.get? "code")).getD "")

/-- `Processor.writedoc` (lines 168–176).  The external
`canonicalise`/`regularise`/`saveAs` calls belong to the external
serializer and are modelled as the identity on the tree; the allowlist
refusal and the emitted filename (`outname` with `%` replaced by the book
code) are the source's.  Called with no open document Python would raise. -/
def writedoc (st : PState) : Except String PState :=
  match st.doc with
  | none => .error "AttributeError: NoneType doc in writedoc"
  | some d =>
    let bk := docBook d
    match st.books with
    | some bks =>
      if bks.contains bk then
        .ok { st with written := st.written ++ [strReplace st.outname "%" bk],
                      log := st.log ++ ["Writing " ++ strReplace st.outname "%" bk] }
      else .ok st
    | none =>
      .ok { st with written := st.written ++ [strReplace st.outname "%" bk],
                    log := st.log ++ ["Writing " ++ strReplace st.outname "%" bk] }

/-- `booktitles` (lines 101–106). -/
def booktitles : List (String × String × String) :=
  [("ECC", "The Preacher, or", "Ecclesiastes"),
   ("SNG", "The Song of Solomon, or", "Song of Songs"),
   ("ACT", "The Acts of the Apostles", "Acts"),
   ("REV", "The Revelation to John", "Revelation")]

/-- Python `s.rsplit(' ', 1)` (only called when `s` contains a space). -/
def pyRsplit1 (s : String) : String × String :=
  let rev := s.data.reverse
  match findSubAux [' '] rev with
  | some i => (String.mk ((rev.drop (i + 1)).reverse), String.mk ((rev.take i).reverse))
  | none => (s, s)

/-- `Processor.makebook` (lines 181–205).  The literal template is parsed by
the external `USX.fromUsx`; it is modelled as the element structure the
template spells out (book id element and the six title-page paragraphs, in
order), without inter-element whitespace.  The caller sets the cursor to the
root's last child (index 6, the `mt1` paragraph). -/
def makebook (bk : String) (names : Option (List (String × String × String × String))) :
    Elem :=
  let bn := booknameOf bk
  let (b0, b1, b2) :=
    match names with
    | none => (bn, bn, bk)
    | some tbl =>
      match tbl.find? (fun e => e.1 == bk) with
      | some (_, l, sh, ab) => (l, sh, ab)
      | none => (bn, bn, bk)
  let (t1, t2) :=
    match lookupAssoc booktitles bk with
    | some tt => tt
    | none => if containsSub " " b0 then pyRsplit1 b0 else (b0, b0)
  Elem.ofKids "usx" [("version", "3.1")] none none
    [Elem.mk "book" [("style", "id"), ("code", bk)]
       (some "Autogenerated BSB by bsb2usfm") none [],
     Elem.mk "para" [("style", "h")] (some b1) none [],
     Elem.mk "para" [("style", "toc1")] (some b0) none [],
     Elem.mk "para" [("style", "toc2")] (some b1) none [],
     Elem.mk "para" [("style", "toc3")] (some b2) none [],
     Elem.mk "para" [("style", "mt2")] (some t1) none [],
     Elem.mk "para" [("style", "mt1")] (some t2) none []]

/-- `Processor.appenddoc` (lines 207–212), specialised to its only call
site: append a node to the document root and move the cursor to it. -/
def appenddoc (doc : Elem) (tag sty : String) (extra : List (String × String)) :
    Elem × List Nat :=
  let n := doc.children.length
  (doc.push (.mk tag (extra ++ [("style", sty)]) none none []), [n])

/-- `Processor.appendverse` (lines 329–332): append a verse marker at the
cursor and clear the pending flag (`self.cref.verse` on a `None` reference
would raise). -/
def appendverse (st : PState) : Except String PState :=
  match st.cur, st.cref, st.doc with
  | some p, some r, some d =>
    .ok { st with
      doc := some (d.appendAt p
        (.mk "verse" [("style", "v"), ("number", optNatStr r.verse)] none none [])),
      verse_pending := false }
  | _, _, _ => .error "AttributeError: missing state in appendverse"

/-- The text/tail concatenation of `appendtext` lines 343–346. -/
def appendTxtNode (txt : String) (e : Elem) : Elem :=
  if e.children.isEmpty then e.withText (some ((e.text.getD "") ++ txt))
  else e.withChildren (modLast (fun c => c.withTail (some ((c.tail.getD "") ++ txt))) e.children)

/-- `Processor.appendtext` (lines 334–346). -/
def appendtext (st : PState) (txt : String) (isverse dostrip : Bool) :
    Except String PState :=
  match st.cur with
  | none => .ok { st with log := st.log ++ ["Nothing to add text: " ++ txt ++ " to"] }
  | some p => do
    let txt := if dostrip then pyRstrip txt else txt
    let (st, txt) ←
      if isverse && st.verse_pending then do
        let st ← appendverse st
        pure (st, pyLstrip txt)
      else pure (st, txt)
    match st.doc with
    | some d => .ok { st with doc := some (d.modifyAt p (appendTxtNode txt)) }
    | none => .error "unreachable: cursor without document"

/-- `self.currnode = c.addto(self.currnode, ...)` plus log collection; when
no document is open the tree is untouched on a successful call (only style
chains that resolve nothing return without a parent access). -/
def addtoOn (st : PState) (c : PType) (text : Option String) (ispar : Bool)
    (verse : Option PRef) : Except String PState := do
  let (d2, res, lg) ← c.addto (st.doc.getD (.mk "" [] none none [])) st.cur text ispar verse
  pure { st with
    doc := match st.doc with | some _ => some d2 | none => none,
    cur := res,
    log := st.log ++ lg }

/-- `Processor.appendjunkytext` (lines 348–356): repeatedly find a
`<p class=|X|>` tag, append the text before it, open the style (silently
skipping unknown classes), and continue; trailing text is appended.  The
fuel is the text length (every iteration consumes the tag, at least one
character). -/
def appendjunkytextGo : Nat → PState → String → Except String PState
  | 0, st, _ => .ok st
  | fuel + 1, st, txt =>
    match lazySpan "<p class=|" "|>" txt with
    | none => if txt ≠ "" then appendtext st txt true true else .ok st
    | some (pre, cls, rest) => do
      let st ← appendtext st pre true true
      let st ←
        match lookupAssoc ptypes cls with
        | none => pure st
        | some c => addtoOn st c none false none
      appendjunkytextGo fuel st rest

def appendjunkytext (st : PState) (txt : String) : Except String PState :=
  appendjunkytextGo (txt.length + 1) st txt

/-- The `enumerate(bits)` loop of the `<span>` branch of `addheading`
(lines 246–255): the first fragment becomes the new node's text, captured
`<a>` groups become `ref` children (with a `loc` attribute when `canonref`
verifies them), fragments between groups become the preceding `ref`'s tail. -/
def spanBits (st : PState) : List String → Nat → Except String PState
  | [], _ => .ok st
  | b :: bs, i =>
    match st.cur, st.doc with
    | some p, some d =>
      if i == 0 then
        spanBits { st with doc := some (d.modifyAt p (fun e => e.withText (some b))) } bs (i + 1)
      else if i % 2 == 0 then
        spanBits { st with doc := some (d.modifyAt p (fun e =>
          e.withChildren (modLast (fun c => c.withTail (some b)) e.children))) } bs (i + 1)
      else
        let (bref, _, _) := canonref b
        let attrs := match bref with
          | none => []
          | some r => [("loc", rrStr r)]
        spanBits { st with doc := some (d.modifyAt p (fun e =>
          e.push (.mk "ref" attrs (some b) none []))) } bs (i + 1)
    | _, _ => .error "AttributeError: NoneType currnode in span bits"

/-- The scanning loop of `Processor.addheading` (lines 220–270).  Each
iteration consumes at least the matched tag, so the fuel (the text length)
never runs out on inputs where the Python loop terminates. -/
def addheadingGo : Nat → PState → String → Bool → Except String PState
  | 0, st, _, _ => .ok st
  | fuel + 1, st, txt, isversetext =>
    if txt == "" then .ok st
    else if startsWithS "<p " txt then
      match matchHeadP txt with
      | none => .ok { st with log := st.log ++ ["Heading p failed to parse: " ++ txt] }
      | some (cls, body, rest) =>
        match lookupAssoc ptypes cls with
        | none => .ok { st with log := st.log ++ ["Missing ptype: " ++ cls ++ " in " ++ txt] }
        | some c => do
          let st ← addtoOn st c (some (pyStrip body)) true
            (if st.verse_pending && isversetext then st.cref else none)
          let st ←
            if isversetext then
              match st.cur, st.doc with
              | some p, some d =>
                match d.getAt? p with
                | some e => pure (if e.tag == "char" then { st with verse_pending := false } else st)
                | none => .error "unreachable: invalid cursor"
              | none, _ => .error "AttributeError: NoneType currnode after addto"
              | some _, none => .error "unreachable: cursor without document"
            else pure st
          addheadingGo fuel st rest isversetext
    else if startsWithS "<span " txt then
      match matchHeadSpan txt with
      | none => .ok { st with log := st.log ++ ["Bad span: " ++ txt] }
      | some (cls, body, rest) =>
        match lookupAssoc ptypes cls with
        | none =>
          .ok { st with log := st.log ++ ["Missing ptype for span: " ++ cls ++ " in " ++ txt] }
        | some c => do
          let st ← addtoOn st c none false none
          let st ← spanBits st (aSplit body) 0
          addheadingGo fuel st rest isversetext
    else if startsWithS "<div " txt then
      match matchHeadDiv txt with
      | none => .ok { st with log := st.log ++ ["Bad div: " ++ txt] }
      | some (cls, body, rest) =>
        match lookupAssoc ptypes cls with
        | none =>
          .ok { st with log := st.log ++ ["Missing ptype for div: " ++ cls ++ " in " ++ txt] }
        | some c => do
          let st ← addtoOn st c (some body) false none
          addheadingGo fuel st rest isversetext
    else .ok { st with log := st.log ++ ["Unknown heading text to process: " ++ txt] }

/-- `Processor.addheading` (lines 214–271). -/
def addheading (st : PState) (txt : String) (isversetext : Bool) : Except String PState :=
  match st.cur with
  | none => .ok st
  | some _ => do
    let txt := if startsWithS "<br />" txt then strDrop txt 6 else txt
    let st ← addheadingGo (txt.length + 1) st (pyStrip txt) isversetext
    pure { st with pendinglstrip := false }

/-! ## `Processor.addnote` (lines 273–320) -/

/-- The `while` loop over `<span class=|fnv|>(.*?)</span>` matches
(lines 295–305): the list of (text before the span, captured group) pairs
and the final remainder. -/
def fnvScan : Nat → String → List (String × String) × String
  | 0, b => ([], b)
  | fuel + 1, b =>
    match lazySpan "<span class=|fnv|>" "</span>" b with
    | none => ([], b)
    | some (pre, g, rest) =>
      let (l, fin) := fnvScan fuel rest
      ((pre, g) :: l, fin)

/-- The `fv` children built by that loop: each span becomes a `char fv`
child of the current note run; the text before a later span is the tail of
the previous `fv` node, and the final remainder the tail of the last one. -/
def mkFvChain (g : String) : List (String × String) → String → List Elem
  | [], fin => [.mk "char" [("style", "fv")] (some g) (some fin) []]
  | (pre, g2) :: rest, fin =>
    .mk "char" [("style", "fv")] (some g) (some pre) [] :: mkFvChain g2 rest fin

/-- One non-empty segment of the note body (the body of the `for` loop,
lines 288–319, after the style has been chosen): embedded references become
`ref` children; otherwise `fnv` spans are split out; otherwise a leading
space migrates to the previous run's text (`prevf`, the last node built). -/
def addnoteSeg (sty b : String) (acc : List Elem) : List Elem :=
  match canonref b with
  | (some r, j, e) =>
    Elem.ofKids "char" [("style", sty)] (some (strTake b j)) none
      [Elem.mk "ref" [("ref", rrStr r)] (some (strSub b j e)) (some (strDrop b e)) []] :: acc
  | (none, _, _) =>
    let (spans, fin) := fnvScan (b.length + 1) b
    match spans with
    | (pre0, g0) :: rest =>
      Elem.ofKids "char" [("style", sty)] (some pre0) none (mkFvChain g0 rest fin) :: acc
    | [] =>
      if startsWithS " " b then
        Elem.mk "char" [("style", sty)] (some (strDrop b 1)) none []
          :: modLast (fun pf => pf.withText (some ((pf.text.getD "") ++ " "))) acc
      else Elem.mk "char" [("style", sty)] (some b) none [] :: acc

/-- The `for i, b in enumerate(bits)` loop of `addnote` (lines 285–319):
empty segments are skipped; every other segment consumes one entry of the
style list (`qcount += 1` is unconditional in the source); even positions
are styled `"ft"`, odd (italic) positions take `fqs[qcount]` when available
and `"fqa"` otherwise.  `acc` holds the children built so far (the `fr`
run, when a current reference exists); a first non-empty segment with no
previous node reproduces Python's `NameError` at `prevf = currf`. -/
def addnoteGo (fqs : List String) : List String → Nat → Nat → List Elem →
    Except String (List Elem)
  | [], _, _, acc => .ok acc
  | b :: bs, i, q, acc =>
    if b == "" then addnoteGo fqs bs (i + 1) q acc
    else if acc.isEmpty then .error "NameError: currf referenced before assignment"
    else
      let sty := if i % 2 == 0 then "ft" else fqs.getD q "fqa"
      addnoteGo fqs bs (i + 1) (q + 1) (addnoteSeg sty b acc)

/-- The key `addnote` looks up in the external style table (line 283). -/
def addnoteKey (cref : Option PRef) (fncount : Nat) : String :=
  refStrOpt cref ++ (if fncount == 0 then "" else "[" ++ toString fncount ++ "]")

/-- `Processor.addnote` (lines 273–320). -/
def addnote (st : PState) (txt : String) : Except String PState :=
  match st.cur, st.doc with
  | some p, some d => do
    let bits := splitSubs ["<i>", "</i>"] txt
    let frAcc :=
      match st.cref with
      | some r => [Elem.mk "char" [("style", "fr")]
          (some (optNatStr r.chapter ++ ":" ++ optNatStr r.verse ++ " ")) none []]
      | none => []
    let fqs :=
      match st.fnqs with
      | some tbl => (lookupAssoc tbl (addnoteKey st.cref st.fncount)).getD []
      | none => []
    let children ← addnoteGo fqs bits 0 0 frAcc
    let fnode := Elem.mk "note" [("style", "f"), ("caller", "+")] none none children
    pure { st with doc := some (d.appendAt p fnode), fncount := st.fncount + 1 }
  | _, _ => .error "AttributeError: NoneType currnode in addnote"

/-! ## `Processor.addend`, `processline` (lines 322–414) -/

/-- `Processor.addend` (lines 322–327): split on close tags; before every
fragment after the first, walk the cursor to its parent (at the root the
parent is Python `None`; one step further is an `AttributeError`). -/
def addendGo (st : PState) : List String → Bool → Except String PState
  | [], _ => .ok st
  | b :: bs, first => do
    let st ←
      if first then pure st
      else
        match st.cur with
        | none => .error "AttributeError: NoneType has no parent"
        | some [] => pure { st with cur := none }
        | some p => pure { st with cur := some p.dropLast }
    let st ← appendtext st b true true
    addendGo st bs false

def addend (st : PState) (txt : String) : Except String PState :=
  addendGo st (splitSubs ["</span>", "</div>"] txt) true

/-- The `if f['VerseId']:` block of `processline` (lines 360–383):
reference tracking, book/document rollover, chapter insertion, footnote
counter reset and verse-pending flag.  An id matching the pattern with a
book name outside `bookmap` reproduces Python's uncaught `KeyError`
(line 366 indexes `bookmap[...]` directly). -/
def processVerseId (st : PState) (vid : String) : Except String PState :=
  if vid == "" then .ok st
  else
    let st := { st with log := st.log ++ ["Processing verse: " ++ vid] }
    match verseIdMatch vid with
    | none => .ok { st with log := st.log ++ ["Failed to parse verse: " ++ vid] }
    | some (g1, c, v) =>
      let st := { st with log := st.log ++ ["Verse regex matched: " ++ g1] }
      match bookmapGet (pyStrip g1) with
      | none => .error ("KeyError: " ++ pyStrip g1)
      | some bk => do
        let lastref := st.cref
        let cref : PRef := ⟨some bk, some c, some v⟩
        let st := { st with cref := some cref,
                            log := st.log ++ ["Created ref: " ++ refStr cref] }
        let (st, lastref) ←
          if st.doc.isNone || (st.doc.map docBook) ≠ some bk then do
            let st := { st with log := st.log ++ ["Creating new document for book: " ++ bk] }
            let st ← match st.doc with
              | some _ => writedoc st
              | none => pure st
            let st := { st with
              doc := some (makebook bk st.names),
              cur := some [6],
              log := st.log ++ ["Document created"],
              skipping := match st.books with
                | some bks => !bks.contains bk
                | none => false }
            pure (st, some (⟨some bk, none, none⟩ : PRef))
          else pure (st, lastref)
        let st :=
          match lastref with
          | some lr =>
            if some c ≠ lr.chapter then
              match st.doc with
              | some d =>
                let (d2, pth) := appenddoc d "chapter" "c" [("number", toString c)]
                { st with doc := some d2, cur := some pth,
                          log := st.log ++ ["Adding chapter: " ++ toString c] }
              | none => st
            else st
          | none =>
            match st.doc with
            | some d =>
              let (d2, pth) := appenddoc d "chapter" "c" [("number", toString c)]
              { st with doc := some d2, cur := some pth,
                        log := st.log ++ ["Adding chapter: " ++ toString c] }
            | none => st
        pure { st with fncount := 0, verse_pending := true }

/-- The content-cell dispatch of `processline` (lines 386–414), in the
source's fixed order. -/
def processCells (st : PState) (row : Row) : Except String PState := do
  let st ← if row.hdg ≠ "" then addheading st row.hdg false else pure st
  let st ← if row.crossref ≠ "" then addheading st row.crossref false else pure st
  let st ← if row.par ≠ "" then addheading st row.par true else pure st
  let st ←
    if row.begQ ≠ "" then do
      let st ←
        if !startsWithS "<span class=|reftext|" row.begQ then
          appendtext st (" " ++ debracket row.begQ) true true
        else pure st
      pure { st with pendinglstrip := true }
    else pure st
  let st ←
    if row.bsb ≠ "" then
      let t := debracket row.bsb
      let t := if digitsCommas t then " " ++ t ++ " " else t
      if containsSub "<p class=" t then appendjunkytext st t
      else if !(["-", ". . .", "vvv"].contains (pyStrip t)) then
        let (t, st) :=
          if st.pendinglstrip then (pyLstrip t, { st with pendinglstrip := false })
          else (t, st)
        appendtext st t true true
      else pure st
    else pure st
  let st ← if row.pnc ≠ "" then addend st row.pnc else pure st
  let st ← if row.endQ ≠ "" then addend st (debracket row.endQ) else pure st
  let st ← if row.footnotes ≠ "" then addnote st row.footnotes else pure st
  let st ← if row.endText ≠ "" then addend st row.endText else pure st
  pure st

/-- `Processor.processline` (lines 358–414): reference handling, then —
unless the skip flag is set — the content cells. -/
def processline (st : PState) (row : Row) : Except String PState := do
  let st ← processVerseId st row.verseId
  if st.skipping then pure st else processCells st row

/-- The driver loop of the script (lines 444–456) over already-split rows. -/
def runRows (st : PState) (rows : List Row) : Except String PState :=
  rows.foldlM processline st

/-- An all-empty row, for building concrete test rows. -/
def emptyRow : Row := ⟨"", "", "", "", "", "", "", "", "", ""⟩

/-! ## Concrete inputs and query helpers for the claim theorems -/

def dummyElem : Elem := .mk "" [] none none []

/-- The `style` attribute of a node (`""` when absent). -/
def styleOf (e : Elem) : String := (e.get? "style").getD ""

/-- The styles of a node's children in document order. -/
def kidStyles (e : Elem) : List String := e.kids.map styleOf

/-- A fresh conversion state with no book filter, footnote table or names. -/
def plainState : PState := initState "out_%.usfm" none none none

/-- C1: the demo row for Genesis 1:3 — the body cell carries the
`<span class=|red|>` form (create_demo_data.py, sample row 3). -/
def C1row : Row := { emptyRow with
  verseId := "Genesis 1:3"
  bsb := " And God said, <span class=|red|>\"Let there be light,\"</span> and there was light. " }

def C1run : Except String PState := runRows plainState [C1row]

/-- C1 (amended): the same sentence with the `<p class=|red|>` form the body
scanner actually handles, inside a `reg` paragraph. -/
def C1rowA : Row := { emptyRow with
  verseId := "Genesis 1:3"
  par := "<p class=|reg|>"
  bsb := " And God said, <p class=|red|>\"Let there be light,\"" }

def C1runA : Except String PState := runRows plainState [C1rowA]

/-- C2: a note body with one italic segment, a style table carrying
`["fqa", "ft"]` for the current reference, and a cursor inside a paragraph. -/
def C2doc : Elem := .mk "usx" [] none none [.mk "para" [("style", "p")] none none []]

def C2state : PState :=
  ⟨some C2doc, some [0], some ⟨some "GEN", some 1, some 5⟩, "o", none,
   some [("GEN 1:5", ["fqa", "ft"])], none, 0, false, false, false, [], []⟩

def C2txt : String := "Hebrew <i>yom</i> can mean day, time, or year."

/-- C2 (amended): the styles the loop assigns, described as the amended
claim states them — every non-empty segment consumes one entry of the
external list; even (non-italic) positions are styled `"ft"`; italic
positions take the entry at the index equal to the number of non-empty
segments already processed, falling back to `"fqa"` past the end. -/
def amendedSegStyles (fqs : List String) : List String → Nat → Nat → List String
  | [], _, _ => []
  | b :: bs, i, q =>
    if b == "" then amendedSegStyles fqs bs (i + 1) q
    else (if i % 2 == 0 then "ft" else fqs.getD q "fqa") :: amendedSegStyles fqs bs (i + 1) (q + 1)

/-- C2 (amended) witness pieces: the `fr` run and a two-segment body. -/
def C2wAcc : List Elem := [Elem.mk "char" [("style", "fr")] (some "1:5 ") none []]

def C2wBits : List String := ["Hebrew ", "yom", " can mean day, time, or year."]

/-- C4 witness inputs: a one-paragraph document with a pending GEN 1:5. -/
def C4wRef : PRef := ⟨some "GEN", some 1, some 5⟩

def C4wF : Elem := .mk "para" [("style", "p")] none none []

def C4wDoc : Elem := .mk "usx" [] none none [C4wF]

def C4wSt : PState := { C2state with verse_pending := true }

/-- C5: first row ends with an unbalanced `</span>` in the `pnc` cell, so
`addend` walks the cursor up to the document root; the second row's body
cell then opens a red-letter character run there. -/
def C5rowA : Row := { emptyRow with
  verseId := "Genesis 1:1"
  pnc := "</span>" }

def C5rowB : Row := { emptyRow with
  bsb := "<p class=|red|>x" }

def C5run : Except String PState := runRows plainState [C5rowA, C5rowB]

/-- C6: a paragraph whose text `"x"` does not end in whitespace but whose
last (empty) child is where `ensurespace` looks. -/
def C6doc : Elem := .mk "usx" [] none none
  [.mk "para" [("style", "p")] (some "x") none [.mk "char" [("style", "wj")] none none []]]

/-- C7: a footnote style table distinguishing every key the scenario can
look up, including the `"GEN 1:5[2]"` key the claim says is never used for
the first footnote of the next verse. -/
def C7fnqs : List (String × List String) :=
  [("GEN 1:5", ["A0", "A1"]), ("GEN 1:5[1]", ["B0", "B1"]), ("GEN 1:5[2]", ["Z0", "Z1"]),
   ("GEN 1:6", ["C0", "C1"])]

def C7st : PState := initState "out_%.usfm" none (some C7fnqs) none

def C7rowA : Row := { emptyRow with
  verseId := "Genesis 1:5"
  footnotes := "a <i>b</i>" }

def C7rowB : Row := { emptyRow with
  footnotes := "c <i>d</i>" }

def C7rowC : Row := { emptyRow with
  verseId := "Genesis 1:6"
  footnotes := "e <i>f</i>" }

def C7run : Except String PState := runRows C7st [C7rowA, C7rowB, C7rowC]

/-- C7 witness: the state after the reference part of the first row. -/
def C7wState : PState :=
  match processVerseId C7st "Genesis 1:5" with
  | .ok st => st
  | .error _ => C7st

/-- C7 witness: the state after composing one footnote on `C7wState`
(the cursor is at the `mt1` paragraph left by `makebook`). -/
def C7wState2 : PState :=
  match addnote C7wState "a <i>b</i>" with
  | .ok st => st
  | .error _ => C7wState

/-- C8: a reference cell matching the verse-id pattern whose book name is
not in the canonical table. -/
def C8row : Row := { emptyRow with verseId := "Foobar 3:4" }

/-- C8 (amended) witness row: a reference cell that does not match the
pattern at all. -/
def C8rowB : Row := { emptyRow with verseId := "hello world" }

/-- C9: allowlist `{GEN}` against a row of Exodus. -/
def C9st : PState := initState "out_%.usfm" (some ["GEN"]) none none

def C9row : Row := { emptyRow with
  verseId := "Exodus 3:14"
  bsb := " some text " }

/-- C9 witness: the state after reference handling of the Exodus row. -/
def C9wState : PState :=
  match processVerseId C9st "Exodus 3:14" with
  | .ok st => st
  | .error _ => C9st

/-- C10: a node whose last child has text `"y"` and tail `"x"`; the first
call extends the tail, a second call descends past the now
whitespace-ended tail and extends the text. -/
def C10n : Elem := .mk "para" [] none none [.mk "char" [] (some "y") (some "x") []]

/-- C1: the full document tree the demo row actually produces — the span
markup is literal text in the verse's tail and no `wj` run exists anywhere. -/
def C1expected : Elem :=
  Elem.ofKids "usx" [("version", "3.1")] none none
    [Elem.mk "book" [("style", "id"), ("code", "GEN")]
       (some "Autogenerated BSB by bsb2usfm") none [],
     Elem.mk "para" [("style", "h")] (some "Genesis") none [],
     Elem.mk "para" [("style", "toc1")] (some "Genesis") none [],
     Elem.mk "para" [("style", "toc2")] (some "Genesis") none [],
     Elem.mk "para" [("style", "toc3")] (some "GEN") none [],
     Elem.mk "para" [("style", "mt2")] (some "Genesis") none [],
     Elem.mk "para" [("style", "mt1")] (some "Genesis") none [],
     Elem.ofKids "chapter" [("number", "1"), ("style", "c")] none none
       [Elem.mk "verse" [("style", "v"), ("number", "3")] none
          (some "And God said, <span class=|red|>\"Let there be light,\"</span> and there was light.") []]]

/-- C8 (amended): the state a failed reference parse leaves behind — both
log lines appended (in the order `processVerseId` appends them), nothing
else changed. -/
def stLogFail (st : PState) (row : Row) : PState :=
  { st with log := (st.log ++ ["Processing verse: " ++ row.verseId])
      ++ ["Failed to parse verse: " ++ row.verseId] }

/-- C9 witness: a bare Exodus document for the `writedoc` allowlist part. -/
def C9wDocE : Elem :=
  .mk "usx" [] none none [.mk "book" [("style", "id"), ("code", "EXO")] none none []]

def C9wSt2 : PState := { C9st with doc := some C9wDocE }

/-- C2 witness: the children list the loop builds from the two-segment
body over the style list `["fqa", "ft"]` (newest-first storage). -/
def C2wRes : List Elem :=
  match addnoteGo ["fqa", "ft"] C2wBits 0 0 C2wAcc with
  | .ok r => r
  | .error _ => []

/-! ## Theorems -/

/-! ### Path, tree and `addto` lemmas -/

theorem withChildren_children (e : Elem) (cs : List Elem) :
    (e.withChildren cs).children = cs := by
  cases e; rfl

theorem withChildren_same (e : Elem) : e.withChildren e.children = e := by
  cases e; rfl

theorem withChildren_withChildren (e : Elem) (a b : List Elem) :
    (e.withChildren a).withChildren b = e.withChildren b := by
  cases e; rfl

theorem stPos_lt {cs : List Elem} {i j : Nat} (hj : stPos cs i = some j) :
    j < cs.length := by
  unfold stPos at hj
  split at hj
  · injection hj with h2
    omega
  · cases hj

/-- `stPos` only looks at the length, so `set` preserves it. -/
theorem stPos_set (cs : List Elem) (j' : Nat) (x : Elem) (i : Nat) :
    stPos (cs.set j' x) i = stPos cs i := by
  simp [stPos]

/-- Reading back the node a `modifyAt` just rewrote. -/
theorem getAt?_modifyAt (p : List Nat) (doc : Elem) (f : Elem → Elem) :
    (doc.modifyAt p f).getAt? p = (doc.getAt? p).map f := by
  induction p generalizing doc with
  | nil => simp [Elem.modifyAt, Elem.getAt?]
  | cons i p ih =>
    cases hj : stPos doc.children i with
    | none => simp [Elem.modifyAt, Elem.getAt?, hj]
    | some j =>
      cases hcj : doc.children[j]? with
      | none => simp [Elem.modifyAt, Elem.getAt?, hj, hcj]
      | some cj =>
        have hjlt : j < doc.children.length := stPos_lt hj
        have hget : (doc.children.set j (cj.modifyAt p f))[j]? = some (cj.modifyAt p f) :=
          List.getElem?_set_eq_of_lt _ hjlt
        simp only [Elem.modifyAt, Elem.getAt?, List.get?_eq_getElem?, hj, hcj,
          withChildren_children, stPos_set, hget, ih]

/-- Two rewrites at the same path compose. -/
theorem modifyAt_modifyAt (p : List Nat) (doc : Elem) (f g : Elem → Elem) :
    (doc.modifyAt p f).modifyAt p g = doc.modifyAt p (fun e => g (f e)) := by
  induction p generalizing doc with
  | nil => simp [Elem.modifyAt]
  | cons i p ih =>
    cases hj : stPos doc.children i with
    | none => simp [Elem.modifyAt, hj]
    | some j =>
      cases hcj : doc.children[j]? with
      | none => simp [Elem.modifyAt, hj, hcj]
      | some cj =>
        have hjlt : j < doc.children.length := stPos_lt hj
        have hget : (doc.children.set j (cj.modifyAt p f))[j]? = some (cj.modifyAt p f) :=
          List.getElem?_set_eq_of_lt _ hjlt
        simp only [Elem.modifyAt, List.get?_eq_getElem?, hj, hcj, withChildren_children,
          stPos_set, hget, ih, List.set_set, withChildren_withChildren]

/-- A rewrite one level below `p`. -/
theorem modifyAt_append_one (p : List Nat) (i : Nat) (doc : Elem) (f : Elem → Elem) :
    doc.modifyAt (p ++ [i]) f = doc.modifyAt p (fun e => e.modifyAt [i] f) := by
  induction p generalizing doc with
  | nil => simp [Elem.modifyAt]
  | cons k p ih =>
    cases hj : stPos doc.children k with
    | none => simp [Elem.modifyAt, hj]
    | some j =>
      cases hcj : doc.children[j]? with
      | none => simp [Elem.modifyAt, List.get?_eq_getElem?, hj, hcj]
      | some cj =>
        simp only [List.cons_append, Elem.modifyAt, List.get?_eq_getElem?, hj, hcj,
          List.append_eq, ih]

/-- A `modifyAt` under congruent functions. -/
theorem modifyAt_congr (p : List Nat) (doc : Elem) (f g : Elem → Elem)
    (h : ∀ e, f e = g e) : doc.modifyAt p f = doc.modifyAt p g := by
  have : f = g := funext h
  rw [this]

/-- `ensurespace` never changes the number of children. -/
theorem ensurespace_children_length (e : Elem) :
    (ensurespace e).children.length = e.children.length := by
  match e with
  | .mk tg a t tl [] =>
    cases t with
    | none => rfl
    | some s =>
      simp only [ensurespace]
      split <;> rfl
  | .mk tg a t tl (c :: cs) =>
    cases htl : c.tail with
    | none => simp only [ensurespace, htl, Elem.children, List.length_cons]
    | some s =>
      simp only [ensurespace, htl]
      split <;> simp only [Elem.children, List.length_cons]

/-- Appending a fresh, empty node (e.g. a verse marker) makes the following
`ensurespace` a no-op: it descends into the new last child and finds
nothing. -/
theorem ensurespace_push_fresh (e : Elem) (tg : String) (a : List (String × String)) :
    ensurespace (e.push (Elem.mk tg a none none [])) = e.push (Elem.mk tg a none none []) := by
  cases e
  rfl

/-- `ensurespace` leaves a freshly created childless node unchanged. -/
theorem ensurespace_fresh (tg : String) (a : List (String × String)) :
    ensurespace (Elem.mk tg a none none []) = Elem.mk tg a none none [] := rfl

/-- `modifyAt` only consults the function's value at the focused node. -/
theorem modifyAt_congr_at (p : List Nat) (doc F : Elem) (f g : Elem → Elem)
    (hF : doc.getAt? p = some F) (h : f F = g F) :
    doc.modifyAt p f = doc.modifyAt p g := by
  induction p generalizing doc with
  | nil =>
    simp only [Elem.getAt?] at hF
    cases hF
    simpa [Elem.modifyAt] using h
  | cons i p ih =>
    cases hj : stPos doc.children i with
    | none => simp [Elem.modifyAt, hj]
    | some j =>
      cases hcj : doc.children[j]? with
      | none => simp [Elem.modifyAt, List.get?_eq_getElem?, hj, hcj]
      | some cj =>
        have hF2 : cj.getAt? p = some F := by
          simpa [Elem.getAt?, List.get?_eq_getElem?, hj, hcj] using hF
        simp only [Elem.modifyAt, List.get?_eq_getElem?, hj, hcj, ih cj hF2]

/-- Setting the text of the node just pushed (Python index = old length). -/
theorem modifyAt_one_push (X c : Elem) (t : Option String) :
    (X.push c).modifyAt [X.children.length] (fun e => e.withText t) =
      X.push (c.withText t) := by
  have hst : stPos (c :: X.children) X.children.length = some 0 := by
    simp [stPos]
  simp only [Elem.modifyAt, Elem.push, withChildren_children, hst, List.get?_eq_getElem?,
    List.getElem?_cons_zero, List.set_cons_zero, withChildren_withChildren]

/-- The single-style, character-kind pass of the `Style.addto` loop
(lines 49–57), cursor anywhere: the pending verse marker is appended first
(making the following `ensurespace` a no-op since it descends into the
fresh verse node), else `ensurespace` runs on the parent as it stands; the
new `char` node is then appended and returned. -/
theorem addtoGo_char (doc : Elem) (p : List Nat) (F : Elem) (s : String)
    (verse : Option PRef) (hF : doc.getAt? p = some F)
    (hk : mcGet s = some "char") (hb : s ≠ "b") :
    addtoGo doc (some p) none false verse [s] =
      .ok (doc.modifyAt p (fun e =>
             (ensurespace (pushVerse verse e)).push (Elem.mk "char" [("style", s)] none none [])),
           some (p ++ [F.children.length + (match verse with | some _ => 1 | none => 0)]),
           some (p ++ [F.children.length + (match verse with | some _ => 1 | none => 0)])) := by
  have hkind : kindOf s = some "char" := by
    unfold kindOf
    rw [hk]
    rfl
  have hbeq : (s == "b") = false := by
    simp [hb]
  cases verse with
  | none =>
    have hcount : Elem.childCountAt (doc.modifyAt p ensurespace) p = F.children.length := by
      simp [Elem.childCountAt, getAt?_modifyAt, hF, ensurespace_children_length]
    have h1 : (("char" : String) == "para") = false := rfl
    have h2 : (("char" : String) != "para") = true := rfl
    simp only [addtoGo, hbeq, Bool.false_and, Bool.false_eq_true, if_false, hkind,
      h1, h2, Bool.or_false, if_true, Elem.appendAt, pushVerse]
    rw [modifyAt_modifyAt]
    simp [hcount]
  | some r =>
    have hcount :
        Elem.childCountAt ((doc.modifyAt p (fun e => e.push (mkVerseElem r))).modifyAt p
          ensurespace) p = F.children.length + 1 := by
      simp [Elem.childCountAt, modifyAt_modifyAt, getAt?_modifyAt, hF,
        ensurespace_children_length, Elem.push, withChildren_children]
    have h1 : (("char" : String) == "para") = false := rfl
    have h2 : (("char" : String) != "para") = true := rfl
    simp only [addtoGo, hbeq, Bool.false_and, Bool.false_eq_true, if_false, hkind,
      h1, h2, Bool.or_false, if_true, Elem.appendAt, pushVerse]
    rw [modifyAt_modifyAt, modifyAt_modifyAt]
    simp [hcount]

/-- The number of children after `ensurespace` and an optional verse push. -/
theorem pushVerse_ens_length (verse : Option PRef) (F : Elem) :
    (ensurespace (pushVerse verse F)).children.length =
      F.children.length + (match verse with | some _ => 1 | none => 0) := by
  cases verse with
  | none => simp [pushVerse, ensurespace_children_length]
  | some r =>
    simp [pushVerse, ensurespace_children_length, Elem.push, withChildren_children]

/-- `Style.addto` for a single character-kind style (the whole of lines
33–68 in that case): the pending verse marker is appended first, then
`ensurespace`, then the new `char` node carrying the text; the result is
the new node's path and no diagnostics. -/
theorem addto_char_run (doc : Elem) (p : List Nat) (F : Elem) (s : String)
    (txt : Option String) (verse : Option PRef)
    (hF : doc.getAt? p = some F) (hk : mcGet s = some "char") (hb : s ≠ "b") :
    Sty.addto ⟨[s], none⟩ doc (some p) txt false verse =
      .ok (doc.modifyAt p (fun e =>
             (ensurespace (pushVerse verse e)).push (Elem.mk "char" [("style", s)] txt none [])),
           some (p ++ [F.children.length + (match verse with | some _ => 1 | none => 0)]),
           []) := by
  cases verse with
  | none =>
    have hgo := addtoGo_char doc p F s none hF hk hb
    cases txt with
    | none => simp only [Sty.addto, hgo, bind, Except.bind]
    | some t =>
      simp only [Sty.addto, hgo, bind, Except.bind]
      rw [modifyAt_append_one, modifyAt_modifyAt]
      have hlen : F.children.length + 0 = (ensurespace (pushVerse none F)).children.length := by
        rw [pushVerse_ens_length]
      have hpoint :
          ((ensurespace (pushVerse none F)).push
              (Elem.mk "char" [("style", s)] none none [])).modifyAt
            [F.children.length + 0] (fun e => e.withText (some t)) =
          (ensurespace (pushVerse none F)).push
            (Elem.mk "char" [("style", s)] (some t) none []) := by
        rw [hlen, modifyAt_one_push]
        rfl
      rw [modifyAt_congr_at p doc F
        (fun e => ((ensurespace (pushVerse none e)).push
            (Elem.mk "char" [("style", s)] none none [])).modifyAt
          [F.children.length + 0] (fun e => e.withText (some t)))
        (fun e => (ensurespace (pushVerse none e)).push
          (Elem.mk "char" [("style", s)] (some t) none []))
        hF hpoint]
  | some r =>
    have hgo := addtoGo_char doc p F s (some r) hF hk hb
    cases txt with
    | none => simp only [Sty.addto, hgo, bind, Except.bind]
    | some t =>
      simp only [Sty.addto, hgo, bind, Except.bind]
      rw [modifyAt_append_one, modifyAt_modifyAt]
      have hlen : F.children.length + 1 = (ensurespace (pushVerse (some r) F)).children.length := by
        rw [pushVerse_ens_length]
      have hpoint :
          ((ensurespace (pushVerse (some r) F)).push
              (Elem.mk "char" [("style", s)] none none [])).modifyAt
            [F.children.length + 1] (fun e => e.withText (some t)) =
          (ensurespace (pushVerse (some r) F)).push
            (Elem.mk "char" [("style", s)] (some t) none []) := by
        rw [hlen, modifyAt_one_push]
        rfl
      rw [modifyAt_congr_at p doc F
        (fun e => ((ensurespace (pushVerse (some r) e)).push
            (Elem.mk "char" [("style", s)] none none [])).modifyAt
          [F.children.length + 1] (fun e => e.withText (some t)))
        (fun e => (ensurespace (pushVerse (some r) e)).push
          (Elem.mk "char" [("style", s)] (some t) none []))
        hF hpoint]


/-- Setting any field of the node just pushed (Python index = old length). -/
theorem modifyAt_push_last (X c : Elem) (f : Elem → Elem) :
    (X.push c).modifyAt [X.children.length] f = X.push (f c) := by
  have hst : stPos (c :: X.children) X.children.length = some 0 := by
    simp [stPos]
  simp only [Elem.modifyAt, Elem.push, withChildren_children, hst, List.get?_eq_getElem?,
    List.getElem?_cons_zero, List.set_cons_zero, withChildren_withChildren]

/-- Claim C4: a pending verse marker is consumed by the first insertion of
that verse's content.  (1) `Style.addto` with a pending verse and a style
resolving to a non-paragraph (character) kind appends the `verse` node
immediately before the new node — the parent's children gain the verse
marker and then the character run, in that order.  (2) `appendtext` with
the verse-pending flag set appends the verse node before the text and
clears the flag. -/
theorem C4_verse_marker :
    (∀ (doc : Elem) (p : List Nat) (F : Elem) (s : String) (txt : Option String) (r : PRef),
       doc.getAt? p = some F → mcGet s = some "char" → s ≠ "b" →
       Sty.addto ⟨[s], none⟩ doc (some p) txt false (some r) =
         .ok (doc.modifyAt p (fun e =>
                (e.push (mkVerseElem r)).push (Elem.mk "char" [("style", s)] txt none [])),
              some (p ++ [F.children.length + 1]), []))
  ∧ (∀ (st : PState) (p : List Nat) (r : PRef) (d : Elem) (txt : String),
       st.cur = some p → st.cref = some r → st.doc = some d → st.verse_pending = true →
       appendtext st txt true true =
         .ok { st with
           doc := some ((d.appendAt p
               (Elem.mk "verse" [("style", "v"), ("number", optNatStr r.verse)] none none [])).modifyAt
             p (appendTxtNode (pyLstrip (pyRstrip txt)))),
           verse_pending := false }) := by
  constructor
  · intro doc p F s txt r hF hk hb
    rw [addto_char_run doc p F s txt (some r) hF hk hb]
    have hpt : ∀ e : Elem,
        (ensurespace (pushVerse (some r) e)).push (Elem.mk "char" [("style", s)] txt none []) =
        (e.push (mkVerseElem r)).push (Elem.mk "char" [("style", s)] txt none []) := by
      intro e
      simp only [pushVerse, mkVerseElem, ensurespace_push_fresh]
    rw [modifyAt_congr p doc _ _ hpt]
  · intro st p r d txt hcur hcref hdoc hvp
    obtain ⟨doc0, cur0, cref0, o0, b0, f0, n0, fc0, pl0, sk0, vp0, lg0, wr0⟩ := st
    simp only at hcur hcref hdoc hvp
    subst hcur hcref hdoc hvp
    simp [appendtext, appendverse, Elem.appendAt, bind, Except.bind, pure, Except.pure]

/-- `getAt?` of the node just pushed (Python index = old length). -/
theorem getAt?_push_last (X c : Elem) :
    (X.push c).getAt? [X.children.length] = some c := by
  have hst : stPos (c :: X.children) X.children.length = some 0 := by
    simp [stPos]
  simp only [Elem.getAt?, Elem.push, withChildren_children, hst, List.get?_eq_getElem?,
    List.getElem?_cons_zero]

/-- Claim C5 (amended): insertions of paragraph-kind styles walk the cursor
to the document root (lines 42–44) and attach the new paragraph there,
wherever the cursor was and whether or not the request was paragraph-level;
and a paragraph-level request (`ispar`) whose resolved kind is a character
run also walks to the root, synthesizes a default `p` paragraph there, and
creates the character run inside that paragraph — so such insertions never
attach a `char` node directly to the root.  (The global invariant still
fails when the cursor is already at the root, per the counterexample.) -/
theorem C5_amended_thm :
    (∀ (doc : Elem) (p : List Nat) (s : String) (txt : Option String) (ispar : Bool),
       kindOf s = some "para" → s ≠ "b" →
       Sty.addto ⟨[s], none⟩ doc (some p) txt ispar none =
         .ok (doc.push (Elem.mk "para" [("style", s)] txt none []),
              some [doc.children.length], []))
  ∧ (∀ (doc : Elem) (p : List Nat) (s : String) (txt : Option String),
       mcGet s = some "char" → s ≠ "b" →
       Sty.addto ⟨[s], none⟩ doc (some p) txt true none =
         .ok (doc.push ((Elem.mk "para" [("style", "p")] none none []).push
                (Elem.mk "char" [("style", s)] txt none [])),
              some [doc.children.length, 0], [])) := by
  constructor
  · intro doc p s txt ispar hkp hb
    have hbeq : (s == "b") = false := by
      simp [hb]
    have h3 : (("para" : String) == "para") = true := rfl
    have h4 : (("para" : String) != "para") = false := rfl
    have hcc : Elem.childCountAt doc [] = doc.children.length := by
      simp [Elem.childCountAt, Elem.getAt?]
    have happ : ∀ (d c : Elem), Elem.appendAt d [] c = d.push c := fun _ _ => rfl
    have hgo : addtoGo doc (some p) none ispar none [s] =
        .ok (doc.push (Elem.mk "para" [("style", s)] none none []),
             some [doc.children.length], some [doc.children.length]) := by
      simp only [addtoGo, hbeq, Bool.false_and, Bool.false_eq_true, if_false, hkp,
        h3, Bool.true_or, if_true, h4, Bool.and_false, happ, hcc, List.nil_append]
    cases txt with
    | none => simp only [Sty.addto, hgo, bind, Except.bind]
    | some t =>
      simp only [Sty.addto, hgo, bind, Except.bind]
      rw [modifyAt_push_last]
      rfl
  · intro doc p s txt hk hb
    have hkind : kindOf s = some "char" := by
      unfold kindOf
      rw [hk]
      rfl
    have hbeq : (s == "b") = false := by
      simp [hb]
    have h1 : (("char" : String) == "para") = false := rfl
    have h2 : (("char" : String) != "para") = true := rfl
    have hcc : Elem.childCountAt doc [] = doc.children.length := by
      simp [Elem.childCountAt, Elem.getAt?]
    have hens : (doc.push (Elem.mk "para" [("style", "p")] none none [])).modifyAt
        [doc.children.length] ensurespace =
        doc.push (Elem.mk "para" [("style", "p")] none none []) := by
      rw [modifyAt_push_last, ensurespace_fresh]
    have happ : ∀ (d c : Elem), Elem.appendAt d [] c = d.push c := fun _ _ => rfl
    have hcc2 : Elem.childCountAt
        (doc.push (Elem.mk "para" [("style", "p")] none none [])) [doc.children.length] = 0 := by
      unfold Elem.childCountAt
      rw [getAt?_push_last]
      rfl
    have hgo : addtoGo doc (some p) none true none [s] =
        .ok (doc.push ((Elem.mk "para" [("style", "p")] none none []).push
               (Elem.mk "char" [("style", s)] none none [])),
             some [doc.children.length, 0], some [doc.children.length, 0]) := by
      simp only [addtoGo, hbeq, Bool.false_and, Bool.false_eq_true, if_false, hkind,
        h1, h2, Bool.or_true, Bool.true_and, if_true, happ, hcc, List.nil_append]
      rw [hens]
      simp only [hcc2]
      unfold Elem.appendAt
      rw [modifyAt_push_last]
      simp
    cases txt with
    | none => simp only [Sty.addto, hgo, bind, Except.bind]
    | some t =>
      simp only [Sty.addto, hgo, bind, Except.bind]
      have hfin : (doc.push ((Elem.mk "para" [("style", "p")] none none []).push
            (Elem.mk "char" [("style", s)] none none []))).modifyAt
          [doc.children.length, 0] (fun e => e.withText (some t)) =
          doc.push ((Elem.mk "para" [("style", "p")] none none []).push
            (Elem.mk "char" [("style", s)] (some t) none [])) := by
        have : ([doc.children.length, 0] : List Nat) = [doc.children.length] ++ [0] := rfl
        rw [this, modifyAt_append_one, modifyAt_push_last]
        have h0 : (0 : Nat) = (Elem.mk "para" [("style", "p")] none none []).children.length := rfl
        rw [h0, modifyAt_one_push]
        rfl
      rw [hfin]

/-- A single `ensurespace` call appends at most one character of text. -/
theorem ensurespace_textLen (e : Elem) :
    (ensurespace e).textLen ≤ e.textLen + 1 := by
  induction e using ensurespace.induct with
  | case1 tg a tl s h =>
    have hsp : (" " : String).length = 1 := rfl
    simp only [ensurespace]
    split <;> cases tl <;>
      (simp [Elem.textLen, textLenList, optLen, String.length_append, hsp]; try omega)
  | case2 tg a tl s h =>
    have hsp : (" " : String).length = 1 := rfl
    simp only [ensurespace]
    split <;> cases tl <;>
      (simp [Elem.textLen, textLenList, optLen, String.length_append, hsp]; try omega)
  | case3 tg a tl => simp [ensurespace]
  | case4 tg a t tl c cs s hc h =>
    have hsp : (" " : String).length = 1 := rfl
    obtain ⟨ct, ca, cx, ctl, ccs⟩ := c
    simp only [Elem.tail] at hc
    subst hc
    simp only [ensurespace, Elem.tail]
    split
    · simp only [Elem.textLen, textLenList, Elem.withTail, optLen,
        String.length_append, hsp]
      omega
    · rename_i hcond
      exact absurd h hcond
  | case5 tg a t tl c cs s hc h ih =>
    simp only [ensurespace, hc]
    split
    · rename_i hcond
      exact absurd hcond h
    · simp only [Elem.textLen, textLenList]
      omega
  | case6 tg a t tl c cs hc ih =>
    simp only [ensurespace, hc, Elem.textLen, textLenList]
    omega

/-- A second `ensurespace` call on a childless node is a no-op. -/
theorem ensurespace_idem_childless (n : Elem) (h : n.children = []) :
    ensurespace (ensurespace n) = ensurespace n := by
  obtain ⟨tg, a, t, tl, cs⟩ := n
  simp only [Elem.children] at h
  subst h
  cases t with
  | none => rfl
  | some s =>
    simp only [ensurespace]
    split
    · have hend : endsSpaceNl (s ++ " ") = true := by
        simp [endsSpaceNl, String.data_append, List.getLast?_concat]
      simp [ensurespace, hend]
    · rename_i hcond
      simp only [ensurespace]
      split
      · rename_i hcond2
        exact absurd hcond2 hcond
      · rfl

/-- Claim C3: `canonref` parses `"Genesis 1:1"` to GEN 1:1 with the match's
start and end offsets (0 and 11); a dash followed by a single number gives a
same-chapter range (`"John 3:16-18"` ends at 3:18); a dash followed by a
`chapter:verse` pair gives an end reference in a different chapter; and the
dash may be the ASCII hyphen or the Unicode en-dash. -/
theorem C3_canonref :
    canonref "Genesis 1:1" = (some (.one ⟨some "GEN", some 1, some 1⟩), 0, 11)
  ∧ canonref "John 3:16-18" =
      (some (.range ⟨some "JHN", some 3, some 16⟩ ⟨some "JHN", some 3, some 18⟩), 0, 12)
  ∧ canonref "John 3:16–18" =
      (some (.range ⟨some "JHN", some 3, some 16⟩ ⟨some "JHN", some 3, some 18⟩), 0, 12)
  ∧ canonref "John 3:16-4:2" =
      (some (.range ⟨some "JHN", some 3, some 16⟩ ⟨some "JHN", some 4, some 2⟩), 0, 13)
  ∧ (PRef.mk (some "JHN") (some 4) (some 2)).chapter ≠
      (PRef.mk (some "JHN") (some 3) (some 16)).chapter :=
  ⟨by rfl, by rfl, by rfl, by rfl, by decide⟩

/-- Claim C1 (counterexample): processing the demo row whose body cell
carries `<span class=|red|>"Let there be light,"</span>` produces no node
styled `wj` at all — the span markup survives as literal text — because
`processline` routes the body cell to `appendjunkytext` only when it
contains `"<p class="`, and `appendjunkytext` itself only scans for
`<p class=|X|>` tags; the claim asserts the opposite. -/
theorem C1_counterexample :
    C1run.map (fun st => (st.doc, st.cur)) = .ok (some C1expected, some [7])
  ∧ containsSub "<span class=|red|>"
      "And God said, <span class=|red|>\"Let there be light,\"</span> and there was light."
      = true :=
  ⟨by rfl, by rfl⟩

/-- Claim C1 (amended): a body cell using the `<p class=|red|>` form (the
form the body-cell scanner handles), in a row that opens a `reg` paragraph,
produces a character run styled `wj` containing the quoted text, nested
inside the enclosing paragraph node (root child 8: the `p` paragraph whose
children are the verse marker and the `wj` run holding the quote). -/
theorem C1_amended_thm :
    C1runA.map (fun st => ((st.doc.getD dummyElem).getAt? [8], st.cur)) =
      .ok (some (Elem.ofKids "para" [("style", "p")] (some "") none
        [Elem.mk "verse" [("style", "v"), ("number", "3")] none (some "And God said, ") [],
         Elem.mk "char" [("style", "wj")] (some "\"Let there be light,\"") none []]),
        some [8, 1]) := by rfl

/-- Claim C2 (counterexample): with the style list `["fqa", "ft"]` filed
under the current reference key, the italic segment `yom` of
`"Hebrew <i>yom</i> can mean day, time, or year."` is styled `"ft"`, not
the first unconsumed entry `"fqa"` the claim requires: the source's
`qcount += 1` runs for every non-empty segment, so the leading `"ft"`
segment already consumed the `"fqa"` entry. -/
theorem C2_counterexample :
    (addnote C2state C2txt).map (fun st => (st.doc.getD dummyElem).getAt? [0, 0]) =
      .ok (some (Elem.ofKids "note" [("style", "f"), ("caller", "+")] none none
        [Elem.mk "char" [("style", "fr")] (some "1:5 ") none [],
         Elem.mk "char" [("style", "ft")] (some "Hebrew ") none [],
         Elem.mk "char" [("style", "ft")] (some "yom ") none [],
         Elem.mk "char" [("style", "ft")] (some "can mean day, time, or year.") none []]))
  ∧ ("ft" : String) ≠ "fqa" :=
  ⟨by rfl, by decide⟩

/-- Claim C5 (counterexample): an unbalanced `</span>` in a close-text cell
walks the cursor up to the document root via `addend`; a following body
cell with `<p class=|red|>` then attaches a `char` node directly to the
root — the root's children end in a `char`, violating the claimed
invariant. -/
theorem C5_counterexample :
    C5run.map (fun st => (st.doc.getD dummyElem).kids.map Elem.tag) =
      .ok ["book", "para", "para", "para", "para", "para", "para", "chapter", "char"] := by rfl

/-- Claim C6 (counterexample): inserting a `wj` character run under a
paragraph whose text `"x"` does not end in whitespace but whose last child
is empty leaves `"x"` untouched — `ensurespace` recurses into the empty
last child and appends nothing, so the immediately preceding content does
not end in whitespace after the insertion, contrary to the claim. -/
theorem C6_counterexample :
    Sty.addto ⟨["wj"], none⟩ C6doc (some [0]) (some "hi") false none =
      .ok (.mk "usx" [] none none
        [Elem.ofKids "para" [("style", "p")] (some "x") none
          [.mk "char" [("style", "wj")] none none [],
           .mk "char" [("style", "wj")] (some "hi") none []]],
        some [0, 1], [])
  ∧ endsSpaceNl "x" = false :=
  ⟨by rfl, by rfl⟩

/-- Claim C8 (counterexample): a non-empty reference cell that matches the
verse-id pattern but names an unknown book (`"Foobar 3:4"`) is fatal: the
source indexes `bookmap[...]` directly and the uncaught `KeyError`
propagates, contradicting "reference-parse failures are never fatal". -/
theorem C8_counterexample :
    processline plainState C8row = .error "KeyError: Foobar" := by rfl

/-- Claim C10 (counterexample): `ensurespace` is not idempotent.  On a node
whose last child has text `"y"` and tail `"x"`, the first call appends a
space to the tail; the second call sees a whitespace-ended tail, recurses
into the child and appends a second space to its text, so a second
consecutive call does not leave the tree unchanged. -/
theorem C10_counterexample :
    ensurespace (ensurespace C10n) ≠ ensurespace C10n
  ∧ ensurespace C10n = Elem.mk "para" [] none none [.mk "char" [] (some "y") (some "x ") []]
  ∧ ensurespace (ensurespace C10n) =
      Elem.mk "para" [] none none [.mk "char" [] (some "y ") (some "x ") []] := by
  refine ⟨fun h => ?_, rfl, rfl⟩
  have h2 : ([some "y "] : List (Option String)) = ([some "y"] : List (Option String)) :=
    congrArg (fun e => e.children.map Elem.text) h
  exact absurd h2 (by decide)


/-! ### Remaining claim theorems -/

/-- Splitting a successful monadic bind over `Except String`. -/
theorem bind_ok_ex {α β : Type} {x : Except String α} {f : α → Except String β} {b : β}
    (h : x >>= f = .ok b) : ∃ a, x = .ok a ∧ f a = .ok b := by
  cases x with
  | error e => simp [bind, Except.bind] at h
  | ok a => exact ⟨a, rfl, by simpa [bind, Except.bind] using h⟩

/-- Claim C6 (amended): every character-run insertion without a pending
verse calls `ensurespace` on the resolved parent just before creating the
node, and `ensurespace` appends at most one character — it does not
guarantee the preceding content ends in whitespace (see the
counterexample). -/
theorem C6_amended_thm :
    (∀ (doc : Elem) (p : List Nat) (F : Elem) (s : String) (txt : Option String),
       doc.getAt? p = some F → mcGet s = some "char" → s ≠ "b" →
       Sty.addto ⟨[s], none⟩ doc (some p) txt false none =
         .ok (doc.modifyAt p (fun e =>
                (ensurespace e).push (Elem.mk "char" [("style", s)] txt none [])),
              some (p ++ [F.children.length]), []))
  ∧ (∀ n : Elem, (ensurespace n).textLen ≤ n.textLen + 1) := by
  constructor
  · intro doc p F s txt hF hk hb
    have h := addto_char_run doc p F s txt none hF hk hb
    simpa [pushVerse] using h
  · exact ensurespace_textLen

/-- C6 witness: the general shape at a one-paragraph document, and the
bound at the C10 node. -/
theorem C6_amended_w :
    (Sty.addto ⟨["wj"], none⟩ C2doc (some [0]) (some "hi") false none =
       .ok (C2doc.modifyAt [0] (fun e =>
              (ensurespace e).push (Elem.mk "char" [("style", "wj")] (some "hi") none [])),
            some ([0] ++ [C4wF.children.length]), []))
  ∧ (ensurespace C10n).textLen ≤ C10n.textLen + 1 :=
  ⟨C6_amended_thm.1 C2doc [0] C4wF "wj" (some "hi") rfl rfl (by decide),
   C6_amended_thm.2 C10n⟩

/-- Claim C10 (amended): a single `ensurespace` call appends at most one
character, and on a childless node a second call is a no-op; general
idempotence fails (see the counterexample). -/
theorem C10_amended_thm :
    (∀ n : Elem, (ensurespace n).textLen ≤ n.textLen + 1)
  ∧ (∀ n : Elem, n.children = [] → ensurespace (ensurespace n) = ensurespace n) :=
  ⟨ensurespace_textLen, ensurespace_idem_childless⟩

/-- C10 witness: the bound at the C10 node and idempotence at a childless
paragraph. -/
theorem C10_amended_w :
    (ensurespace C10n).textLen ≤ C10n.textLen + 1
  ∧ ensurespace (ensurespace (Elem.mk "para" [] (some "x") none [])) =
      ensurespace (Elem.mk "para" [] (some "x") none []) :=
  ⟨C10_amended_thm.1 C10n,
   C10_amended_thm.2 (Elem.mk "para" [] (some "x") none []) rfl⟩

/-- C4 witness: the pending GEN 1:5 marker is appended right before the
`wj` run, and `appendtext` flushes it before the verse text. -/
theorem C4_verse_marker_w :
    (Sty.addto ⟨["wj"], none⟩ C4wDoc (some [0]) (some "hi") false (some C4wRef) =
       .ok (C4wDoc.modifyAt [0] (fun e =>
              (e.push (mkVerseElem C4wRef)).push
                (Elem.mk "char" [("style", "wj")] (some "hi") none [])),
            some ([0] ++ [C4wF.children.length + 1]), []))
  ∧ (appendtext C4wSt "hello " true true =
       .ok { C4wSt with
         doc := some ((C2doc.appendAt [0]
             (Elem.mk "verse" [("style", "v"), ("number", optNatStr C4wRef.verse)]
               none none [])).modifyAt [0]
           (appendTxtNode (pyLstrip (pyRstrip "hello ")))),
         verse_pending := false }) :=
  ⟨C4_verse_marker.1 C4wDoc [0] C4wF "wj" (some "hi") C4wRef rfl rfl (by decide),
   C4_verse_marker.2 C4wSt [0] C4wRef C2doc "hello " rfl rfl rfl rfl⟩

/-- C5 witness: a section-heading style from a div walks to the root of a
one-paragraph document, and a paragraph-level red-letter request builds the
synthesized `p` paragraph at the root with the `wj` run inside it. -/
theorem C5_amended_w :
    (Sty.addto ⟨["s1"], none⟩ C2doc (some [0]) (some "head") false none =
       .ok (C2doc.push (Elem.mk "para" [("style", "s1")] (some "head") none []),
            some [C2doc.children.length], []))
  ∧ Sty.addto ⟨["wj"], none⟩ C2doc (some [0]) (some "hi") true none =
      .ok (C2doc.push ((Elem.mk "para" [("style", "p")] none none []).push
             (Elem.mk "char" [("style", "wj")] (some "hi") none [])),
           some [C2doc.children.length, 0], []) :=
  ⟨C5_amended_thm.1 C2doc [0] "s1" (some "head") false rfl (by decide),
   C5_amended_thm.2 C2doc [0] "wj" (some "hi") rfl (by decide)⟩

/-- Claim C9: once the reference step of a row has set the skip flag,
`processline` returns its result untouched (the content cells are never
dispatched), and `writedoc` on a document whose book is outside the
allowlist writes nothing and changes nothing. -/
theorem C9_skiplist :
    (∀ (st : PState) (row : Row) (st1 : PState),
       processVerseId st row.verseId = .ok st1 → st1.skipping = true →
       processline st row = .ok st1)
  ∧ (∀ (st : PState) (d : Elem) (bks : List String),
       st.doc = some d → st.books = some bks → bks.contains (docBook d) = false →
       writedoc st = .ok st) := by
  constructor
  · intro st row st1 h hs
    simp [processline, h, bind, Except.bind, hs, pure, Except.pure]
  · intro st d bks hd hb hc
    simp only [writedoc, hd, hb, hc, Bool.false_eq_true, if_false]

/-- C9 witness: the Exodus row against the `{GEN}` allowlist. -/
theorem C9_skiplist_w :
    processline C9st C9row = .ok C9wState
  ∧ writedoc C9wSt2 = .ok C9wSt2 :=
  ⟨C9_skiplist.1 C9st C9row C9wState rfl rfl,
   C9_skiplist.2 C9wSt2 C9wDocE ["GEN"] rfl rfl (by decide)⟩

/-- Claim C8 (amended): a non-empty reference cell that fails the verse-id
pattern only appends the two log lines — the current reference is kept and
the row continues with the content cells (while a matching id with an
unknown book is fatal, see the counterexample). -/
theorem C8_amended_thm :
    ∀ (st : PState) (row : Row),
      row.verseId ≠ "" → verseIdMatch row.verseId = none →
      (processline st row =
         (if (stLogFail st row).skipping then pure (stLogFail st row)
          else processCells (stLogFail st row) row))
      ∧ (stLogFail st row).cref = st.cref := by
  intro st row hv hm
  have hbeq : (row.verseId == "") = false := by
    simp [hv]
  constructor
  · simp [processline, processVerseId, hbeq, hm, bind, Except.bind, stLogFail]
  · rfl

/-- C8 witness: the row whose reference cell reads `"hello world"`. -/
theorem C8_amended_w :
    (processline plainState C8rowB =
       (if (stLogFail plainState C8rowB).skipping then pure (stLogFail plainState C8rowB)
        else processCells (stLogFail plainState C8rowB) C8rowB))
  ∧ (stLogFail plainState C8rowB).cref = plainState.cref :=
  C8_amended_thm plainState C8rowB (by decide) rfl

set_option maxHeartbeats 1000000 in
/-- Claim C7: every row whose reference cell matches the verse-id pattern
(and parses) resets the footnote counter to zero, `addnote` increments it
by one, and in the two-footnote scenario GEN 1:5 / GEN 1:6 the three notes
take the styles of the keys `GEN 1:5`, `GEN 1:5[1]` and `GEN 1:6` (never
`GEN 1:5[2]`), ending with the counter at one. -/
theorem C7_footnote_counter :
    (∀ (st : PState) (vid : String) (g : String × Nat × Nat) (st2 : PState),
       vid ≠ "" → verseIdMatch vid = some g →
       processVerseId st vid = .ok st2 → st2.fncount = 0)
  ∧ (∀ (st : PState) (txt : String) (st2 : PState),
       addnote st txt = .ok st2 → st2.fncount = st.fncount + 1)
  ∧ C7run.map (fun st =>
      (((st.doc.getD dummyElem).getAt? [7, 0]).map kidStyles,
       ((st.doc.getD dummyElem).getAt? [7, 1]).map kidStyles,
       ((st.doc.getD dummyElem).getAt? [7, 2]).map kidStyles,
       st.fncount)) =
    .ok (some ["fr", "ft", "A1"], some ["fr", "ft", "B1"], some ["fr", "ft", "C1"], 1) := by
  refine ⟨?_, ?_, by rfl⟩
  · intro st vid g st2 hv hm h
    obtain ⟨g1, c, v⟩ := g
    have hbeq : (vid == "") = false := by
      simp [hv]
    cases hbk : bookmapGet (pyStrip g1) with
    | none =>
      simp only [processVerseId, hbeq, Bool.false_eq_true, if_false, hm, hbk] at h
      exact Except.noConfusion h
    | some bk =>
      simp only [processVerseId, hbeq, Bool.false_eq_true, if_false, hm, hbk] at h
      split at h
      · rcases hw : st.doc with _ | d
        · simp only [hw, pure, Except.pure, bind, Except.bind] at h
          injection h with h2
          subst h2
          rfl
        · simp only [hw, pure, Except.pure, bind, Except.bind] at h
          split at h
          · exact Except.noConfusion h
          · injection h with h2
            subst h2
            rfl
      · simp only [pure, Except.pure, bind, Except.bind] at h
        injection h with h2
        subst h2
        rfl
  · intro st txt st2 h
    cases hc : st.cur with
    | none =>
      simp only [addnote, hc] at h
      exact Except.noConfusion h
    | some p =>
      cases hd : st.doc with
      | none =>
        simp only [addnote, hc, hd] at h
        exact Except.noConfusion h
      | some d =>
        simp only [addnote, hc, hd] at h
        obtain ⟨a, ha, hk⟩ := bind_ok_ex h
        simp only [pure, Except.pure] at hk
        injection hk with h2
        subst h2
        rfl

/-- C7 witness: the counter is zero after the GEN 1:5 reference step and
one after composing its first footnote. -/
theorem C7_footnote_counter_w :
    C7wState.fncount = 0 ∧ C7wState2.fncount = C7wState.fncount + 1 :=
  ⟨C7_footnote_counter.1 C7st "Genesis 1:5" ("Genesis ", 1, 5) C7wState
     (by decide) rfl rfl,
   C7_footnote_counter.2.1 C7wState "a <i>b</i>" C7wState2 rfl⟩

/-- `styleOf` ignores the text field. -/
theorem styleOf_withText (e : Elem) (t : Option String) :
    styleOf (e.withText t) = styleOf e := by
  cases e
  rfl

/-- `modLast` with a style-preserving update leaves every style in place. -/
theorem modLast_styles (f : Elem → Elem) (hf : ∀ x, styleOf (f x) = styleOf x)
    (acc : List Elem) :
    (modLast f acc).map styleOf = acc.map styleOf := by
  cases acc with
  | nil => rfl
  | cons x xs => simp [modLast, hf]

/-- One loop body step prepends exactly one node carrying the chosen style
and keeps the styles of the accumulated nodes. -/
theorem addnoteSeg_styles (sty b : String) (acc : List Elem) :
    (addnoteSeg sty b acc).map styleOf = sty :: acc.map styleOf := by
  have hsty : ∀ (t tl : Option String) (cs : List Elem),
      styleOf (Elem.mk "char" [("style", sty)] t tl cs) = sty := by
    intro t tl cs
    rfl
  rcases hcr : canonref b with ⟨r, j, e⟩
  cases r with
  | some rr =>
    simp [addnoteSeg, hcr, Elem.ofKids, hsty]
  | none =>
    rcases hsp : fnvScan (b.length + 1) b with ⟨spans, fin⟩
    cases spans with
    | cons s0 rest =>
      obtain ⟨pre0, g0⟩ := s0
      simp [addnoteSeg, hcr, hsp, Elem.ofKids, hsty]
    | nil =>
      by_cases hsw : startsWithS " " b
      · rw [addnoteSeg]
        simp only [hcr, hsp, hsw, if_true]
        rw [List.map_cons, hsty,
          modLast_styles _ (fun x => styleOf_withText x _)]
      · simp [addnoteSeg, hcr, hsp, hsw, hsty]

/-- Claim C2 (amended): over the whole loop, the styles assigned (in
document order) are exactly the claim as amended describes — `"ft"` at
even positions, and at odd positions the external entry indexed by the
number of non-empty segments already processed, with `"fqa"` past the end
of the list. -/
theorem C2_amended_thm :
    ∀ (fqs bits : List String) (i q : Nat) (acc res : List Elem),
      addnoteGo fqs bits i q acc = .ok res →
      res.reverse.map styleOf =
        acc.reverse.map styleOf ++ amendedSegStyles fqs bits i q := by
  intro fqs bits
  induction bits with
  | nil =>
    intro i q acc res h
    simp only [addnoteGo] at h
    injection h with h2
    subst h2
    simp [amendedSegStyles]
  | cons b bs ih =>
    intro i q acc res h
    by_cases hb : (b == "") = true
    · simp only [addnoteGo, hb, if_true] at h
      simp only [amendedSegStyles, hb, if_true]
      exact ih (i + 1) q acc res h
    · have hb2 : (b == "") = false := by
        simp at hb
        simp [hb]
      cases hae : acc.isEmpty with
      | true =>
        simp only [addnoteGo, hb2, Bool.false_eq_true, if_false, hae, if_true] at h
        exact Except.noConfusion h
      | false =>
        simp only [addnoteGo, hb2, Bool.false_eq_true, if_false, hae] at h
        have hstep := ih (i + 1) (q + 1) _ res h
        rw [hstep, List.map_reverse, addnoteSeg_styles]
        simp [amendedSegStyles, hb2, List.map_reverse, List.append_assoc]

/-- C2 witness: the two-segment body over the list `["fqa", "ft"]` — the
italic segment takes index 1 (`"ft"`), not `"fqa"`. -/
theorem C2_amended_w :
    C2wRes.reverse.map styleOf =
      C2wAcc.reverse.map styleOf ++ amendedSegStyles ["fqa", "ft"] C2wBits 0 0 :=
  C2_amended_thm ["fqa", "ft"] C2wBits 0 0 C2wAcc C2wRes rfl


end Bsb
